import Mathlib

/-! Bird turret firmware (`bird_turret/stm32/Core/Src/main.c`).

A shallow embedding of the three FreeRTOS tasks of `main.c`:

* `StartUartTask`  – the Command Task (serial protocol front end),
* `StartMotorTask` – the Control Task (PID loop with saturation fault),
* `StartTrigTask`  – the Fire Task.

Conventions of the embedding.

* C `int` values are `Int`; the `int8_t` globals hold an `Int` in `-128..127`,
  produced from a received byte by `toInt8`.
* A C `float` value is carried as the rational it denotes.  The float
  operations of `StartMotorTask` are a parameter (`FloatArith`): `binary32` is
  IEEE-754 single precision with round-to-nearest-even, `exactArith` is the
  arithmetic without rounding.  `pidControl`, `motorBody` and `motorLoop` are
  the `exactArith` instances of `pidControlA`, `motorBodyA` and `motorLoopA`.
  The conversion of a float to `int` (as in `phipulse += …`) truncates toward
  zero (`floatToInt`).
* Every task is a program-counter machine with one step per statement that
  touches shared state (semaphores, globals, UART, timer registers, GPIO).
  Purely task-local computation is folded into the neighbouring step.
* `HAL_UART_Receive` either returns with the next byte of the input stream
  (`uartStep`) or returns on its `0xffff` ms timeout with nothing stored
  (`uartTimeout`); the callers ignore which.
-/

namespace BirdTurret

/-! ## Constants -/

/-- The macro `PHIMAX` (main.c:41). -/
def PHIMAX : Int := 750
/-- The macro `PHIMIN` (main.c:42). -/
def PHIMIN : Int := 150
/-- The macro `THTMAX` (main.c:43). -/
def THTMAX : Int := 600
/-- The macro `THTMIN` (main.c:44). -/
def THTMIN : Int := 150

/-- The constant `RES_ERR` (main.c:100). -/
def RES_ERR : Nat := 0
/-- The constant `RES_DONE` (main.c:100). -/
def RES_DONE : Nat := 1

/-- The macro `MOVEOP` of `StartUartTask`. -/
def MOVEOP : Int := 0
/-- The macro `TRIGOP` of `StartUartTask`. -/
def TRIGOP : Int := 1
/-- The macro `TUNEOP` of `StartUartTask`. -/
def TUNEOP : Int := 2

/-- The local `PHICENTER` of `StartMotorTask` (`450 - 1`). -/
def PHICENTER : Int := 450 - 1
/-- The local `THTCENTER` of `StartMotorTask` (`450 - 1`). -/
def THTCENTER : Int := 450 - 1
/-- The local `BOUNDCOUNT` of `StartMotorTask`. -/
def BOUNDCOUNT : Int := 30
/-- The local `dt = 1.0 / 30` of `StartMotorTask`, as the real number written
(the float it is rounded to is `binary32.dt`). -/
def dt : ℚ := 1 / 30
/-- The local `kp = .1` of `StartMotorTask`, as the real number written (the
float it is rounded to is `binary32.kp`). -/
def kp : ℚ := 1 / 10
/-- The local `ki = .01` of `StartMotorTask`, as the real number written (the
float it is rounded to is `binary32.ki`). -/
def ki : ℚ := 1 / 100
/-- The local `kd = .05` of `StartMotorTask` (declared, never read), as the real
number written. -/
def kd : ℚ := 5 / 100

/-- The local `DFLTPULSE` of `StartTrigTask` (declared, never read). -/
def DFLTPULSE : Int := 450
/-- The local `TRIGPULSE` of `StartTrigTask`. -/
def TRIGPULSE : Int := 750

/-! ## Scalar conversions -/

/-- A received byte stored through a `uint8_t *` into an `int8_t` variable:
bytes `128..255` read back as `-128..-1`. -/
def toInt8 (b : Nat) : Int :=
  if b % 256 < 128 then ((b % 256 : Nat) : Int) else ((b % 256 : Nat) : Int) - 256

/-- The C conversion of a float to `int`: truncation toward zero. -/
def floatToInt (x : ℚ) : Int := if 0 ≤ x then ⌊x⌋ else ⌈x⌉

/-! ## The locals of `StartMotorTask` and its loop body -/

/-- The local variables of `StartMotorTask` that live across loop iterations. -/
structure MotorLocals where
  phipulse : Int
  thtpulse : Int
  prevphierr : ℚ
  prevthterr : ℚ
  nowphierr : ℚ
  nowthterr : ℚ
  integphi : ℚ
  integtht : ℚ
  diffphi : ℚ
  difftht : ℚ
  bounderr : Int
  deriving DecidableEq

/-- The initial values of the locals (main.c:603-614). -/
def MotorLocals.fresh : MotorLocals where
  phipulse := PHICENTER
  thtpulse := THTCENTER
  prevphierr := 0
  prevthterr := 0
  nowphierr := 0
  nowthterr := 0
  integphi := 0
  integtht := 0
  diffphi := 0
  difftht := 0
  bounderr := BOUNDCOUNT

/-- The float expression added to a pulse in `pulse += kp*now + ki*integ + kp*diff`
(main.c:632-633); the derivative term is scaled by `kp`, as written there. -/
def pidIncrement (now integ diff : ℚ) : ℚ := kp * now + ki * integ + kp * diff

/-- The statements under `// pid control` (main.c:628-633), read over exact
arithmetic: the instance `exactArith` of `pidControlA`. -/
def pidControl (m : MotorLocals) : MotorLocals :=
  let integphi := m.integphi + m.nowphierr
  let integtht := m.integtht + m.nowthterr
  let diffphi := (m.nowphierr - m.prevphierr) / dt
  let difftht := (m.nowthterr - m.prevthterr) / dt
  { m with
    integphi := integphi
    integtht := integtht
    diffphi := diffphi
    difftht := difftht
    phipulse := floatToInt ((m.phipulse : ℚ) + pidIncrement m.nowphierr integphi diffphi)
    thtpulse := floatToInt ((m.thtpulse : ℚ) + pidIncrement m.nowthterr integtht difftht) }

/-- The two pan clamping assignments (main.c:636-637). -/
def clampPhi (v : Int) : Int :=
  let v1 := if v > PHIMIN then v else PHIMIN
  if v1 < PHIMAX then v1 else PHIMAX

/-- The two tilt clamping assignments (main.c:638-639). -/
def clampTht (v : Int) : Int :=
  let v1 := if v > THTMIN then v else THTMIN
  if v1 < THTMAX then v1 else THTMAX

/-- The condition of the `if` at main.c:640-641. -/
def atBound (phipulse thtpulse : Int) : Bool :=
  phipulse == PHIMIN || phipulse == PHIMAX || thtpulse == THTMIN || thtpulse == THTMAX

/-- The statements under `// check the bound` up to `bounderr--` (main.c:636-642). -/
def checkBound (m : MotorLocals) : MotorLocals :=
  let phipulse := clampPhi m.phipulse
  let thtpulse := clampTht m.thtpulse
  { m with
    phipulse := phipulse
    thtpulse := thtpulse
    bounderr := if atBound phipulse thtpulse then m.bounderr - 1 else m.bounderr }

/-- The local assignments of the fault branch (main.c:644, 647-651). -/
def faultReset (m : MotorLocals) : MotorLocals :=
  { m with
    phipulse := PHICENTER
    thtpulse := THTCENTER
    bounderr := BOUNDCOUNT
    prevphierr := 0
    prevthterr := 0
    nowphierr := 0
    nowthterr := 0
    integphi := 0
    integtht := 0
    diffphi := 0
    difftht := 0 }

/-- The locals once the two shared errors have been read (main.c:620, 624). -/
def readErrors (m : MotorLocals) (phierr thterr : Int) : MotorLocals :=
  { m with nowphierr := (phierr : ℚ), nowthterr := (thterr : ℚ) }

/-- The last statement of the loop body (main.c:658). -/
def storePrev (m : MotorLocals) : MotorLocals :=
  { m with prevphierr := m.nowphierr, prevthterr := m.nowthterr }

/-- What one pass through the body of the `for (;;)` of `StartMotorTask` does,
given the two errors it reads from the shared variables. -/
structure BodyResult where
  /-- the locals when the pass ends -/
  locals : MotorLocals
  /-- `false` when the pass left the loop through `break` -/
  looping : Bool
  /-- the bytes handed to `HAL_UART_Transmit`, in order -/
  sent : List Nat
  /-- the value stored to `TIM2->CCR4` (tilt), if any -/
  tim2ccr4 : Option Int
  /-- the value stored to `TIM3->CCR3` (pan), if any -/
  tim3ccr3 : Option Int
  /-- whether `HAL_GPIO_WritePin(GPIOG, GPIO_PIN_3, GPIO_PIN_SET)` ran -/
  pg3set : Bool
  deriving DecidableEq

/-- One pass through the loop body of `StartMotorTask` (main.c:617-658), after
`moveSem` has been taken. -/
def motorBody (m : MotorLocals) (phierr thterr : Int) : BodyResult :=
  let m1 := checkBound (pidControl (readErrors m phierr thterr))
  if m1.bounderr = 0 then
    { locals := faultReset m1
      looping := false
      sent := [RES_ERR]
      tim2ccr4 := none
      tim3ccr3 := none
      pg3set := true }
  else
    { locals := storePrev m1
      looping := true
      sent := []
      tim2ccr4 := some m1.thtpulse
      tim3ccr3 := some m1.phipulse
      pg3set := false }

/-- The outcome of `StartMotorTask` over a finite list of activations. -/
structure TaskRun where
  /-- the locals after the last pass that ran -/
  locals : MotorLocals
  /-- `false` once the `for (;;)` has been left -/
  looping : Bool
  /-- for every pass that ran, the bytes it transmitted -/
  sentPerPass : List (List Nat)
  /-- for every pass that ran, the pan/tilt values it stored to the timers -/
  pwmPerPass : List (Option Int × Option Int)
  deriving DecidableEq

/-- The `for (;;)` of `StartMotorTask` run over a list of activations, each
given by the `(phierr, thterr)` pair read in that pass.  A pass that executes
`break` ends the loop: the activations after it are not served. -/
def motorLoop (m : MotorLocals) : List (Int × Int) → TaskRun
  | [] => { locals := m, looping := true, sentPerPass := [], pwmPerPass := [] }
  | e :: es =>
    let r := motorBody m e.1 e.2
    if r.looping then
      let rest := motorLoop r.locals es
      { rest with
        sentPerPass := r.sent :: rest.sentPerPass
        pwmPerPass := (r.tim3ccr3, r.tim2ccr4) :: rest.pwmPerPass }
    else
      { locals := r.locals
        looping := false
        sentPerPass := [r.sent]
        pwmPerPass := [(r.tim3ccr3, r.tim2ccr4)] }

/-- Whether the pass that starts from locals `m` and reads the errors `e` ends
its clamping stage with an axis pulse at a bound (the `if` at main.c:640). -/
def pinnedPass (m : MotorLocals) (e : Int × Int) : Bool :=
  let c := checkBound (pidControl (readErrors m e.1 e.2))
  atBound c.phipulse c.thtpulse

/-- Whether every pass of the run from `m` over the given activations is pinned. -/
def allPinned (m : MotorLocals) : List (Int × Int) → Bool
  | [] => true
  | e :: es => pinnedPass m e && allPinned (motorBody m e.1 e.2).locals es

/-- The pulse increment as the specification words it: three distinct gains,
`kp·error + ki·integral + kd·derivative`. -/
def pidIncrementSpec (now integ diff : ℚ) : ℚ := kp * now + ki * integ + kd * diff

/-! ## The float arithmetic as a parameter -/

/-- The single-precision operations `StartMotorTask` uses (main.c:605-610,
620-633).  A float value is carried as the rational it denotes; what an
operation returns for given operands is left to the instance, so that every
statement about a `FloatArith` holds for the arithmetic of the target, however
it rounds. -/
structure FloatArith where
  /-- the value of `float dt = 1.0 / 30` -/
  dt : ℚ
  /-- the value of `float kp = .1` -/
  kp : ℚ
  /-- the value of `float ki = .01` -/
  ki : ℚ
  /-- float `+` -/
  add : ℚ → ℚ → ℚ
  /-- float `-` -/
  sub : ℚ → ℚ → ℚ
  /-- float `*` -/
  mul : ℚ → ℚ → ℚ
  /-- float `/` -/
  div : ℚ → ℚ → ℚ
  /-- conversion of an `int` or `int8_t` to float -/
  ofInt : Int → ℚ

/-- The arithmetic without rounding: the exact-rational reading used by
`pidControl`. -/
def exactArith : FloatArith where
  dt := dt
  kp := kp
  ki := ki
  add := fun a b => a + b
  sub := fun a b => a - b
  mul := fun a b => a * b
  div := fun a b => a / b
  ofInt := fun n => (n : ℚ)

/-- The power `2 ^ e` of an integer exponent. -/
def pow2 (e : Int) : ℚ :=
  if 0 ≤ e then ((2 ^ e.toNat : Nat) : ℚ) else 1 / ((2 ^ (-e).toNat : Nat) : ℚ)

/-- The number of binary digits of `n`, by halving (`fuel` bounds the number
of halvings; `n` itself is always enough). -/
def bitLength : Nat → Nat → Nat
  | 0, _ => 0
  | fuel + 1, n => if n = 0 then 0 else 1 + bitLength fuel (n / 2)

/-- The integer `e` with `2 ^ e ≤ a < 2 ^ (e + 1)`, for positive `a`: the
difference of the digit counts of numerator and denominator, or one less. -/
def log2Floor (a : ℚ) : Int :=
  let e0 : Int := (bitLength a.num.natAbs a.num.natAbs : Int) - (bitLength a.den a.den : Int)
  if pow2 e0 ≤ a then e0 else e0 - 1

/-- Rounding to the nearest integer, ties to the even one. -/
def roundHalfEven (n : ℚ) : Int :=
  let f := ⌊n⌋
  if n - f < 1 / 2 then f
  else if 1 / 2 < n - f then f + 1
  else if f % 2 = 0 then f else f + 1

/-- Rounding of a real result to IEEE-754 binary32, round-to-nearest-even:
24 significant bits, least exponent -126 (subnormals below).  Overflow to
infinity is not represented; no value of `StartMotorTask` comes near it. -/
def roundBinary32 (x : ℚ) : ℚ :=
  if x = 0 then 0
  else
    let e := max (log2Floor |x|) (-126)
    (roundHalfEven (x / pow2 (e - 23)) : ℚ) * pow2 (e - 23)

/-- IEEE-754 binary32 with round-to-nearest-even on every operation: `dt`,
`kp` and `ki` are the floats nearest to `1.0 / 30`, `.1` and `.01`
(`0x1.111112p-5`, `0x1.99999ap-4`, `0x1.47ae14p-7`). -/
def binary32 : FloatArith where
  dt := 17895698 / 536870912
  kp := 13421773 / 134217728
  ki := 10737418 / 1073741824
  add := fun a b => roundBinary32 (a + b)
  sub := fun a b => roundBinary32 (a - b)
  mul := fun a b => roundBinary32 (a * b)
  div := fun a b => roundBinary32 (a / b)
  ofInt := fun n => roundBinary32 (n : ℚ)

/-- The locals once the two shared errors have been read (main.c:620, 624),
under the arithmetic `A`. -/
def readErrorsA (A : FloatArith) (m : MotorLocals) (phierr thterr : Int) : MotorLocals :=
  { m with nowphierr := A.ofInt phierr, nowthterr := A.ofInt thterr }

/-- The statements under `// pid control` (main.c:628-633), under the
arithmetic `A`: every `+`, `-`, `*`, `/` is the float operation, a pulse is
converted to float before the addition and the sum is truncated back. -/
def pidControlA (A : FloatArith) (m : MotorLocals) : MotorLocals :=
  let integphi := A.add m.integphi m.nowphierr
  let integtht := A.add m.integtht m.nowthterr
  let diffphi := A.div (A.sub m.nowphierr m.prevphierr) A.dt
  let difftht := A.div (A.sub m.nowthterr m.prevthterr) A.dt
  { m with
    integphi := integphi
    integtht := integtht
    diffphi := diffphi
    difftht := difftht
    phipulse := floatToInt (A.add (A.ofInt m.phipulse)
      (A.add (A.add (A.mul A.kp m.nowphierr) (A.mul A.ki integphi)) (A.mul A.kp diffphi)))
    thtpulse := floatToInt (A.add (A.ofInt m.thtpulse)
      (A.add (A.add (A.mul A.kp m.nowthterr) (A.mul A.ki integtht)) (A.mul A.kp difftht))) }

/-- One pass through the loop body of `StartMotorTask` (main.c:617-658) under
the arithmetic `A`; `motorBody` is the instance `exactArith`. -/
def motorBodyA (A : FloatArith) (m : MotorLocals) (phierr thterr : Int) : BodyResult :=
  let m1 := checkBound (pidControlA A (readErrorsA A m phierr thterr))
  if m1.bounderr = 0 then
    { locals := faultReset m1
      looping := false
      sent := [RES_ERR]
      tim2ccr4 := none
      tim3ccr3 := none
      pg3set := true }
  else
    { locals := storePrev m1
      looping := true
      sent := []
      tim2ccr4 := some m1.thtpulse
      tim3ccr3 := some m1.phipulse
      pg3set := false }

/-- The `for (;;)` of `StartMotorTask` over a list of activations under the
arithmetic `A`; `motorLoop` is the instance `exactArith`. -/
def motorLoopA (A : FloatArith) (m : MotorLocals) : List (Int × Int) → TaskRun
  | [] => { locals := m, looping := true, sentPerPass := [], pwmPerPass := [] }
  | e :: es =>
    let r := motorBodyA A m e.1 e.2
    if r.looping then
      let rest := motorLoopA A r.locals es
      { rest with
        sentPerPass := r.sent :: rest.sentPerPass
        pwmPerPass := (r.tim3ccr3, r.tim2ccr4) :: rest.pwmPerPass }
    else
      { locals := r.locals
        looping := false
        sentPerPass := [r.sent]
        pwmPerPass := [(r.tim3ccr3, r.tim2ccr4)] }

/-- Whether the pass from locals `m` on the errors `e` ends its clamping stage
with an axis pulse at a bound (the `if` at main.c:640), under the arithmetic
`A`. -/
def pinnedPassA (A : FloatArith) (m : MotorLocals) (e : Int × Int) : Bool :=
  let c := checkBound (pidControlA A (readErrorsA A m e.1 e.2))
  atBound c.phipulse c.thtpulse

/-- Whether every pass of the run from `m` is pinned, under the arithmetic `A`. -/
def allPinnedA (A : FloatArith) (m : MotorLocals) : List (Int × Int) → Bool
  | [] => true
  | e :: es => pinnedPassA A m e && allPinnedA A (motorBodyA A m e.1 e.2).locals es

/-- The number of pinned passes of the run from `m`, under the arithmetic `A`. -/
def pinnedCountA (A : FloatArith) (m : MotorLocals) : List (Int × Int) → Nat
  | [] => 0
  | e :: es =>
    (if pinnedPassA A m e then 1 else 0) + pinnedCountA A (motorBodyA A m e.1 e.2).locals es

/-! ## The shared machine -/

/-- The three threads created in `main` (main.c:203-215). -/
inductive Thread
  | uartTask
  | motorTask
  | trigTask
  deriving DecidableEq

/-- The six semaphores created in `main` (main.c:166-189). -/
inductive Sem
  | phiDirSem
  | thetaDirSem
  | triggerSem
  | trigendSem
  | moveSem
  | moveendSem
  deriving DecidableEq

/-- The statements of the tasks that touch shared state, as log entries. -/
inductive Event
  /-- `HAL_UART_Receive` stored the byte -/
  | recv (b : Nat)
  /-- `HAL_UART_Receive` returned on its timeout, nothing stored -/
  | recvTimeout
  /-- `HAL_UART_Transmit` sent the byte -/
  | send (b : Nat)
  /-- `osSemaphoreWait` returned with the token -/
  | wait (sem : Sem)
  /-- `osSemaphoreRelease` -/
  | release (sem : Sem)
  /-- `phierr = uartphierr` -/
  | setPhierr (v : Int)
  /-- `thterr = uartthterr` -/
  | setThterr (v : Int)
  /-- `nowphierr = phierr` -/
  | getPhierr (v : Int)
  /-- `nowthterr = thterr` -/
  | getThterr (v : Int)
  /-- `HAL_GPIO_WritePin(GPIOG, GPIO_PIN_3, level)` -/
  | writePG3 (level : Bool)
  /-- `HAL_GPIO_TogglePin(GPIOB, LD3_Pin)` -/
  | toggleLD3
  /-- `TIM2->CCR4 = v` -/
  | tim2ccr4 (v : Int)
  /-- `TIM3->CCR3 = v` -/
  | tim3ccr3 (v : Int)
  /-- `TIM3->CCR4 = v` -/
  | tim3ccr4 (v : Int)
  deriving DecidableEq

/-- Program points of `StartUartTask` (main.c:563-589), named after the
statement executed next. -/
inductive UartPc
  | recvPhi
  | recvTht
  | setBusy
  | waitPhi
  | writePhi
  | relPhi
  | waitTht
  | writeTht
  | relTht
  | recvOper
  | dispatch
  | toggle1
  | waitTrigend
  | toggle2
  | tunePan
  deriving DecidableEq

/-- Program points of `StartMotorTask` (main.c:616-660).  `returned` is the
point after the `for (;;)`, reached through `break`. -/
inductive MotorPc
  | waitMove
  | waitPhi
  | readPhi
  | relPhi
  | waitTht
  | readTht
  | relTht
  | compute
  | faultPin
  | faultSend
  | setTilt
  | setPan
  | returned
  deriving DecidableEq

/-- Program points of `StartTrigTask` (main.c:675-682). -/
inductive TrigPc
  | waitTrigger
  | setPulse
  | clearPin
  | sendDone
  | relTrigend
  deriving DecidableEq

/-- The state shared by the three tasks, with the history of what they did. -/
structure Sys where
  phiDirSem : Nat
  thetaDirSem : Nat
  triggerSem : Nat
  trigendSem : Nat
  moveSem : Nat
  moveendSem : Nat
  uartphierr : Int
  uartthterr : Int
  oper : Int
  phierr : Int
  thterr : Int
  /-- the bytes the host has sent and the device has not yet received -/
  rxLine : List Nat
  /-- the level of `GPIOG` pin 3 (busy/fault indicator) -/
  pg3 : Bool
  /-- the level of `LD3` -/
  ld3 : Bool
  /-- the register `TIM2->CCR4` (tilt) -/
  tim2ccr4 : Int
  /-- the register `TIM3->CCR3` (pan) -/
  tim3ccr3 : Int
  /-- the register `TIM3->CCR4` (fire) -/
  tim3ccr4 : Int
  uartPc : UartPc
  motorPc : MotorPc
  motor : MotorLocals
  trigPc : TrigPc
  /-- every shared-state statement executed so far, oldest first -/
  log : List (Thread × Event)
  deriving DecidableEq

/-- The token count of a semaphore. -/
def Sys.sem (s : Sys) : Sem → Nat
  | .phiDirSem => s.phiDirSem
  | .thetaDirSem => s.thetaDirSem
  | .triggerSem => s.triggerSem
  | .trigendSem => s.trigendSem
  | .moveSem => s.moveSem
  | .moveendSem => s.moveendSem

/-- The state with the token count of one semaphore replaced. -/
def Sys.setSem (s : Sys) (x : Sem) (n : Nat) : Sys :=
  match x with
  | .phiDirSem => { s with phiDirSem := n }
  | .thetaDirSem => { s with thetaDirSem := n }
  | .triggerSem => { s with triggerSem := n }
  | .trigendSem => { s with trigendSem := n }
  | .moveSem => { s with moveSem := n }
  | .moveendSem => { s with moveendSem := n }

/-- Append an entry to the history. -/
def Sys.emit (s : Sys) (t : Thread) (e : Event) : Sys :=
  { s with log := s.log ++ [(t, e)] }

/-- Modelled from the spec: `osSemaphoreCreate(def, count)` of the RTOS layer
(not in `main.c`).  The semaphore starts with `count` tokens; `main` passes
`1` for all six, so each starts signalled, which is what lets the first
`osSemaphoreWait(phiDirSemHandle, …)` of the tasks return. -/
def osSemaphoreCreate (count : Nat) : Nat := count

/-- Modelled from the spec: `osSemaphoreWait(sem, osWaitForever)` of the RTOS
layer (not in `main.c`).  With a token present the call takes it and returns;
without one the caller stays blocked (`none`). -/
def osSemaphoreWait (t : Thread) (x : Sem) (s : Sys) : Option Sys :=
  if 0 < s.sem x then some ((s.setSem x (s.sem x - 1)).emit t (.wait x)) else none

/-- Modelled from the spec: `osSemaphoreRelease(sem)` of the RTOS layer (not in
`main.c`).  The semaphores are single-slot: the release leaves one token,
and an extra release while already signalled changes nothing. -/
def osSemaphoreRelease (t : Thread) (x : Sem) (s : Sys) : Sys :=
  (s.setSem x 1).emit t (.release x)

/-- The call `HAL_UART_Receive(huartn, p, 1, 0xffff)` returning with a byte:
the next byte of the line, if one has arrived.  The return on timeout is
`uartTimeout`. -/
def HAL_UART_Receive (s : Sys) : Option (Nat × Sys) :=
  match s.rxLine with
  | [] => none
  | b :: rest => some (b, ({ s with rxLine := rest }).emit .uartTask (.recv b))

/-- One statement of `StartUartTask` (main.c:564-589); `none` when the task
cannot proceed (no byte on the line, or no token in the awaited semaphore). -/
def uartStep (s : Sys) : Option Sys :=
  match s.uartPc with
  | .recvPhi =>
    (HAL_UART_Receive s).map fun r =>
      { r.2 with uartphierr := toInt8 r.1, uartPc := .recvTht }
  | .recvTht =>
    (HAL_UART_Receive s).map fun r =>
      { r.2 with uartthterr := toInt8 r.1, uartPc := .setBusy }
  | .setBusy =>
    some (({ s with pg3 := true, uartPc := .waitPhi }).emit .uartTask (.writePG3 true))
  | .waitPhi =>
    (osSemaphoreWait .uartTask .phiDirSem s).map fun s1 => { s1 with uartPc := .writePhi }
  | .writePhi =>
    some (({ s with phierr := s.uartphierr, uartPc := .relPhi }).emit .uartTask
      (.setPhierr s.uartphierr))
  | .relPhi =>
    some { osSemaphoreRelease .uartTask .phiDirSem s with uartPc := .waitTht }
  | .waitTht =>
    (osSemaphoreWait .uartTask .thetaDirSem s).map fun s1 => { s1 with uartPc := .writeTht }
  | .writeTht =>
    some (({ s with thterr := s.uartthterr, uartPc := .relTht }).emit .uartTask
      (.setThterr s.uartthterr))
  | .relTht =>
    some { osSemaphoreRelease .uartTask .thetaDirSem s with uartPc := .recvOper }
  | .recvOper =>
    (HAL_UART_Receive s).map fun r =>
      { r.2 with oper := toInt8 r.1, uartPc := .dispatch }
  | .dispatch =>
    if s.oper = MOVEOP then
      some { osSemaphoreRelease .uartTask .moveSem s with uartPc := .recvPhi }
    else if s.oper = TRIGOP then
      some { osSemaphoreRelease .uartTask .triggerSem s with uartPc := .toggle1 }
    else if s.oper = TUNEOP then
      some (({ s with tim2ccr4 := 450 - 1, uartPc := .tunePan }).emit .uartTask
        (.tim2ccr4 (450 - 1)))
    else
      some { s with uartPc := .recvPhi }
  | .toggle1 =>
    some (({ s with ld3 := !s.ld3, uartPc := .waitTrigend }).emit .uartTask .toggleLD3)
  | .waitTrigend =>
    (osSemaphoreWait .uartTask .trigendSem s).map fun s1 => { s1 with uartPc := .toggle2 }
  | .toggle2 =>
    some (({ s with ld3 := !s.ld3, uartPc := .recvPhi }).emit .uartTask .toggleLD3)
  | .tunePan =>
    some (({ s with tim3ccr3 := 450 - 1, uartPc := .recvPhi }).emit .uartTask
      (.tim3ccr3 (450 - 1)))

/-- A `HAL_UART_Receive` of `StartUartTask` (main.c:566, 567, 577) returning on
its timeout: nothing is stored, the return value is ignored, and the task goes
on to its next statement with `uartphierr`, `uartthterr` or `oper` as it was.
`none` when the task is not at a receive. -/
def uartTimeout (s : Sys) : Option Sys :=
  match s.uartPc with
  | .recvPhi => some (({ s with uartPc := .recvTht }).emit .uartTask .recvTimeout)
  | .recvTht => some (({ s with uartPc := .setBusy }).emit .uartTask .recvTimeout)
  | .recvOper => some (({ s with uartPc := .dispatch }).emit .uartTask .recvTimeout)
  | _ => none

/-- One statement of `StartMotorTask` (main.c:617-658); `none` when the task
is blocked on a semaphore or has left its `for (;;)`. -/
def motorStep (s : Sys) : Option Sys :=
  match s.motorPc with
  | .waitMove =>
    (osSemaphoreWait .motorTask .moveSem s).map fun s1 => { s1 with motorPc := .waitPhi }
  | .waitPhi =>
    (osSemaphoreWait .motorTask .phiDirSem s).map fun s1 => { s1 with motorPc := .readPhi }
  | .readPhi =>
    some (({ s with motor := { s.motor with nowphierr := (s.phierr : ℚ) },
                    motorPc := .relPhi }).emit .motorTask (.getPhierr s.phierr))
  | .relPhi =>
    some { osSemaphoreRelease .motorTask .phiDirSem s with motorPc := .waitTht }
  | .waitTht =>
    (osSemaphoreWait .motorTask .thetaDirSem s).map fun s1 => { s1 with motorPc := .readTht }
  | .readTht =>
    some (({ s with motor := { s.motor with nowthterr := (s.thterr : ℚ) },
                    motorPc := .relTht }).emit .motorTask (.getThterr s.thterr))
  | .relTht =>
    some { osSemaphoreRelease .motorTask .thetaDirSem s with motorPc := .compute }
  | .compute =>
    let m1 := checkBound (pidControl s.motor)
    if m1.bounderr = 0 then
      some { s with motor := { m1 with phipulse := PHICENTER, thtpulse := THTCENTER },
                    motorPc := .faultPin }
    else
      some { s with motor := m1, motorPc := .setTilt }
  | .faultPin =>
    some (({ s with pg3 := true, motorPc := .faultSend }).emit .motorTask (.writePG3 true))
  | .faultSend =>
    some (({ s with motor := faultReset s.motor, motorPc := .returned }).emit .motorTask
      (.send RES_ERR))
  | .setTilt =>
    some (({ s with tim2ccr4 := s.motor.thtpulse, motorPc := .setPan }).emit .motorTask
      (.tim2ccr4 s.motor.thtpulse))
  | .setPan =>
    some (({ s with tim3ccr3 := s.motor.phipulse, motor := storePrev s.motor,
                    motorPc := .waitMove }).emit .motorTask (.tim3ccr3 s.motor.phipulse))
  | .returned => none

/-- One statement of `StartTrigTask` (main.c:675-682); `none` when the task is
blocked on `triggerSem`. -/
def trigStep (s : Sys) : Option Sys :=
  match s.trigPc with
  | .waitTrigger =>
    (osSemaphoreWait .trigTask .triggerSem s).map fun s1 => { s1 with trigPc := .setPulse }
  | .setPulse =>
    some (({ s with tim3ccr4 := TRIGPULSE, trigPc := .clearPin }).emit .trigTask
      (.tim3ccr4 TRIGPULSE))
  | .clearPin =>
    some (({ s with pg3 := false, trigPc := .sendDone }).emit .trigTask (.writePG3 false))
  | .sendDone =>
    some (({ s with trigPc := .relTrigend }).emit .trigTask (.send RES_DONE))
  | .relTrigend =>
    some { osSemaphoreRelease .trigTask .trigendSem s with trigPc := .waitTrigger }

/-- The statement of a given thread. -/
def threadStep : Thread → Sys → Option Sys
  | .uartTask => uartStep
  | .motorTask => motorStep
  | .trigTask => trigStep

/-- The system as `main` leaves it when it starts the scheduler (main.c:146-219):
every semaphore created with count 1, the globals zero, `TIM3` channels
configured with pulse `450 - 1`, the pins reset, each task at the top of its
function; `input` is what the host will send. -/
def boot (input : List Nat) : Sys where
  phiDirSem := osSemaphoreCreate 1
  thetaDirSem := osSemaphoreCreate 1
  triggerSem := osSemaphoreCreate 1
  trigendSem := osSemaphoreCreate 1
  moveSem := osSemaphoreCreate 1
  moveendSem := osSemaphoreCreate 1
  uartphierr := 0
  uartthterr := 0
  oper := 0
  phierr := 0
  thterr := 0
  rxLine := input
  pg3 := false
  ld3 := false
  tim2ccr4 := 0
  tim3ccr3 := 450 - 1
  tim3ccr4 := 450 - 1
  uartPc := .recvPhi
  motorPc := .waitMove
  motor := MotorLocals.fresh
  trigPc := .waitTrigger
  log := []

/-- Modelled from the spec: the scheduler of the RTOS layer (not in `main.c`),
preemptive and priority-based on one core.  `trigTask` is created with
`osPriorityHigh`, the other two with `osPriorityNormal`: whenever `trigTask`
can run it is the one that runs; otherwise either of the other two may,
the Command Task by a statement or by a receive that times out. -/
inductive Step : Sys → Sys → Prop
  | trig {s s1 : Sys} : trigStep s = some s1 → Step s s1
  | uart {s s1 : Sys} : trigStep s = none → uartStep s = some s1 → Step s s1
  | motor {s s1 : Sys} : trigStep s = none → motorStep s = some s1 → Step s s1
  | timeout {s s1 : Sys} : trigStep s = none → uartTimeout s = some s1 → Step s s1

/-- The states the system can be in after `boot input`. -/
inductive Reachable (input : List Nat) : Sys → Prop
  | boot : Reachable input (boot input)
  | step {s s1 : Sys} : Reachable input s → Step s s1 → Reachable input s1

/-- Run one thread alone for `n` statements; `none` if it cannot take them all. -/
def runThread (t : Thread) : Nat → Sys → Option Sys
  | 0, s => some s
  | n + 1, s => (threadStep t s).bind (runThread t n)

/-- Run a schedule under the scheduler: each entry names the thread that takes
the next statement; `none` if that thread may not or cannot run there. -/
def runSchedule : List Thread → Sys → Option Sys
  | [], s => some s
  | t :: ts, s =>
    if t = .trigTask ∨ (trigStep s).isNone then (threadStep t s).bind (runSchedule ts)
    else none

/-- The number of FIRE opcodes the Command Task has dispatched. -/
def fireDispatches (s : Sys) : Nat :=
  s.log.count (.uartTask, .release .triggerSem)

/-- The number of completion bytes the Fire Task has transmitted. -/
def completionBytes (s : Sys) : Nat :=
  s.log.count (.trigTask, .send RES_DONE)

/-- The number of times the Fire Task has driven the fire output to `TRIGPULSE`. -/
def firePulses (s : Sys) : Nat :=
  s.log.count (.trigTask, .tim3ccr4 TRIGPULSE)

/-- The number of times the Fire Task has signalled fire-complete. -/
def fireCompletes (s : Sys) : Nat :=
  s.log.count (.trigTask, .release .trigendSem)

/-- The bytes transmitted on the serial link so far, oldest first. -/
def sentBytes (s : Sys) : List Nat :=
  s.log.filterMap fun e => match e.2 with
    | .send b => some b
    | _ => none

/-- The bookkeeping of the Fire Task at each of its program points: how many
fire pulses, completion bytes and fire-complete signals it has produced,
against the number of FIRE opcodes dispatched.  While it waits with no token
in `triggerSem` it has answered the boot token and every dispatch. -/
def FireInv (s : Sys) : Prop :=
  match s.trigPc with
  | .waitTrigger =>
    (s.triggerSem = 0 ∧ completionBytes s = fireDispatches s + 1 ∧
      firePulses s = fireDispatches s + 1 ∧ fireCompletes s = fireDispatches s + 1 ∧
      s.tim3ccr4 = TRIGPULSE) ∨
    (s.triggerSem = 1 ∧ completionBytes s = fireDispatches s ∧
      firePulses s = fireDispatches s ∧ fireCompletes s = fireDispatches s)
  | .setPulse =>
    s.triggerSem = 0 ∧ completionBytes s = fireDispatches s ∧
      firePulses s = fireDispatches s ∧ fireCompletes s = fireDispatches s
  | .clearPin =>
    s.triggerSem = 0 ∧ completionBytes s = fireDispatches s ∧
      firePulses s = fireDispatches s + 1 ∧ fireCompletes s = fireDispatches s ∧
      s.tim3ccr4 = TRIGPULSE
  | .sendDone =>
    s.triggerSem = 0 ∧ completionBytes s = fireDispatches s ∧
      firePulses s = fireDispatches s + 1 ∧ fireCompletes s = fireDispatches s ∧
      s.tim3ccr4 = TRIGPULSE
  | .relTrigend =>
    s.triggerSem = 0 ∧ completionBytes s = fireDispatches s + 1 ∧
      firePulses s = fireDispatches s + 1 ∧ fireCompletes s = fireDispatches s ∧
      s.tim3ccr4 = TRIGPULSE

/-! ## The clamping stage -/

theorem clampPhi_eq (v : Int) : clampPhi v = max 150 (min 750 v) := by
  simp only [clampPhi, PHIMIN, PHIMAX]
  split_ifs <;> omega

theorem clampTht_eq (v : Int) : clampTht v = max 150 (min 600 v) := by
  simp only [clampTht, THTMIN, THTMAX]
  split_ifs <;> omega

theorem clampPhi_range (v : Int) : PHIMIN ≤ clampPhi v ∧ clampPhi v ≤ PHIMAX := by
  rw [clampPhi_eq]
  simp only [PHIMIN, PHIMAX]
  omega

theorem clampTht_range (v : Int) : THTMIN ≤ clampTht v ∧ clampTht v ≤ THTMAX := by
  rw [clampTht_eq]
  simp only [THTMIN, THTMAX]
  omega

theorem checkBound_phipulse (m : MotorLocals) :
    (checkBound m).phipulse = clampPhi m.phipulse := rfl

theorem checkBound_thtpulse (m : MotorLocals) :
    (checkBound m).thtpulse = clampTht m.thtpulse := rfl

theorem motorBody_fault (m : MotorLocals) (phierr thterr : Int)
    (h : (checkBound (pidControl (readErrors m phierr thterr))).bounderr = 0) :
    motorBody m phierr thterr =
      { locals := faultReset (checkBound (pidControl (readErrors m phierr thterr)))
        looping := false
        sent := [RES_ERR]
        tim2ccr4 := none
        tim3ccr3 := none
        pg3set := true } := by
  simp [motorBody, h]

theorem motorBody_pass (m : MotorLocals) (phierr thterr : Int)
    (h : (checkBound (pidControl (readErrors m phierr thterr))).bounderr ≠ 0) :
    motorBody m phierr thterr =
      { locals := storePrev (checkBound (pidControl (readErrors m phierr thterr)))
        looping := true
        sent := []
        tim2ccr4 := some (checkBound (pidControl (readErrors m phierr thterr))).thtpulse
        tim3ccr3 := some (checkBound (pidControl (readErrors m phierr thterr))).phipulse
        pg3set := false } := by
  simp [motorBody, h]

/-- C1. Boundary invariant of one Control Task pass: whatever the locals and the
two errors read, the clamping stage leaves the pan pulse in `[PHIMIN, PHIMAX]`
and the tilt pulse in `[THTMIN, THTMAX]`; a value the pass stores to the pan
register `TIM3->CCR3` or the tilt register `TIM2->CCR4` lies in its axis's
range, and so do the two pulses the pass leaves for the next one. -/
theorem C1_pulses_within_bounds (m : MotorLocals) (phierr thterr : Int) :
    (PHIMIN ≤ (checkBound (pidControl (readErrors m phierr thterr))).phipulse ∧
      (checkBound (pidControl (readErrors m phierr thterr))).phipulse ≤ PHIMAX ∧
      THTMIN ≤ (checkBound (pidControl (readErrors m phierr thterr))).thtpulse ∧
      (checkBound (pidControl (readErrors m phierr thterr))).thtpulse ≤ THTMAX) ∧
    ((motorBody m phierr thterr).tim3ccr3 = none ∨
      ∃ v, (motorBody m phierr thterr).tim3ccr3 = some v ∧ PHIMIN ≤ v ∧ v ≤ PHIMAX) ∧
    ((motorBody m phierr thterr).tim2ccr4 = none ∨
      ∃ v, (motorBody m phierr thterr).tim2ccr4 = some v ∧ THTMIN ≤ v ∧ v ≤ THTMAX) ∧
    (PHIMIN ≤ (motorBody m phierr thterr).locals.phipulse ∧
      (motorBody m phierr thterr).locals.phipulse ≤ PHIMAX ∧
      THTMIN ≤ (motorBody m phierr thterr).locals.thtpulse ∧
      (motorBody m phierr thterr).locals.thtpulse ≤ THTMAX) := by
  have hp := clampPhi_range (pidControl (readErrors m phierr thterr)).phipulse
  have ht := clampTht_range (pidControl (readErrors m phierr thterr)).thtpulse
  rw [← checkBound_phipulse] at hp
  rw [← checkBound_thtpulse] at ht
  refine ⟨⟨hp.1, hp.2, ht.1, ht.2⟩, ?_⟩
  by_cases h : (checkBound (pidControl (readErrors m phierr thterr))).bounderr = 0
  · rw [motorBody_fault m phierr thterr h]
    refine ⟨Or.inl rfl, Or.inl rfl, ?_⟩
    simp [faultReset, PHICENTER, THTCENTER, PHIMIN, PHIMAX, THTMIN, THTMAX]
  · rw [motorBody_pass m phierr thterr h]
    exact ⟨Or.inr ⟨_, rfl, hp⟩, Or.inr ⟨_, rfl, ht⟩, hp.1, hp.2, ht.1, ht.2⟩

/-- C10 (as stated, refuted). A pre-clamp tilt value of 700 is not kept: the
clamping stage stores 600, which differs from `max 150 (min 750 700)`, and the
pass counts as saturated with the tilt pulse at 600. -/
theorem C10_tilt_700_not_kept :
    (checkBound { MotorLocals.fresh with thtpulse := 700 }).thtpulse = 600 ∧
    (checkBound { MotorLocals.fresh with thtpulse := 700 }).thtpulse ≠ max 150 (min 750 700) ∧
    atBound 449 600 = true ∧
    atBound 449 750 = false := by
  refine ⟨?_, ?_, ?_, ?_⟩ <;> decide

/-- C10 (amended). The clamping stage keeps the pan pulse in `[150, 750]` and
the tilt pulse in `[150, 600]`: the clamped pan pulse is `max 150 (min 750 v)`,
the clamped tilt pulse is `max 150 (min 600 v)`, a pass that stores a tilt
value stores exactly that one, and the saturation test holds exactly when the
pan pulse is 150 or 750 or the tilt pulse is 150 or 600. -/
theorem C10_reference_bounds (m : MotorLocals) (phierr thterr : Int) (p t : Int) :
    (checkBound m).phipulse = max 150 (min 750 m.phipulse) ∧
    (checkBound m).thtpulse = max 150 (min 600 m.thtpulse) ∧
    ((motorBody m phierr thterr).tim2ccr4 = none ∨
      (motorBody m phierr thterr).tim2ccr4 =
        some (max 150 (min 600 (pidControl (readErrors m phierr thterr)).thtpulse))) ∧
    (atBound p t = true ↔ (p = 150 ∨ p = 750 ∨ t = 150 ∨ t = 600)) := by
  refine ⟨?_, ?_, ?_, ?_⟩
  · rw [checkBound_phipulse, clampPhi_eq]
  · rw [checkBound_thtpulse, clampTht_eq]
  · by_cases h : (checkBound (pidControl (readErrors m phierr thterr))).bounderr = 0
    · rw [motorBody_fault m phierr thterr h]
      exact Or.inl rfl
    · rw [motorBody_pass m phierr thterr h]
      refine Or.inr ?_
      simp only [checkBound_thtpulse, clampTht_eq]
  · simp [atBound, PHIMIN, PHIMAX, THTMIN, THTMAX, or_assoc]

/-- C4 (evaluated on the code). From the fresh locals with a pan error of 1 the
derivative is `(1 - 0) / dt = 30`; the code adds `kp*1 + ki*1 + kp*30 = 311/100`
to the pan pulse, where the three-gain formula gives `kp*1 + ki*1 + kd*30 =
161/100`; the stored pulse is 452 where the three-gain formula gives 450.  In
general the two differ by `(kp - kd) * derivative`. -/
theorem C4_derivative_scaled_by_kp :
    (pidControl (readErrors MotorLocals.fresh 1 0)).diffphi = 30 ∧
    pidIncrement 1 1 30 = 311 / 100 ∧
    pidIncrementSpec 1 1 30 = 161 / 100 ∧
    (pidControl (readErrors MotorLocals.fresh 1 0)).phipulse = 452 ∧
    floatToInt ((MotorLocals.fresh.phipulse : ℚ) + pidIncrementSpec 1 1 30) = 450 ∧
    (∀ now integ diff : ℚ,
      pidIncrement now integ diff - pidIncrementSpec now integ diff = (kp - kd) * diff) := by
  refine ⟨?_, ?_, ?_, ?_, ?_, ?_⟩
  · norm_num [pidControl, readErrors, MotorLocals.fresh, dt]
  · norm_num [pidIncrement, kp, ki]
  · norm_num [pidIncrementSpec, kp, ki, kd]
  · norm_num [pidControl, readErrors, MotorLocals.fresh, dt, pidIncrement, kp, ki, floatToInt,
      PHICENTER]
  · norm_num [pidIncrementSpec, kp, ki, kd, floatToInt, MotorLocals.fresh, PHICENTER]
  · intro now integ diff
    simp only [pidIncrement, pidIncrementSpec]
    ring

/-! ## The saturation budget -/

theorem faultReset_eq_fresh (m : MotorLocals) : faultReset m = MotorLocals.fresh := rfl

theorem pinnedPass_bounderr (m : MotorLocals) (e : Int × Int) (h : pinnedPass m e = true) :
    (checkBound (pidControl (readErrors m e.1 e.2))).bounderr = m.bounderr - 1 := by
  have hdef : (checkBound (pidControl (readErrors m e.1 e.2))).bounderr =
      if atBound (checkBound (pidControl (readErrors m e.1 e.2))).phipulse
          (checkBound (pidControl (readErrors m e.1 e.2))).thtpulse
      then m.bounderr - 1 else m.bounderr := rfl
  simp only [pinnedPass] at h
  rw [hdef, h]
  simp

/-- A run of `n + 1` pinned passes that starts with a budget of `n + 1`: the
first `n` passes transmit nothing and store their pulses, the last one
transmits `RES_ERR`, stores nothing, resets the locals and leaves the loop. -/
theorem motorLoop_pinned (n : Nat) :
    ∀ (m : MotorLocals) (errs : List (Int × Int)),
      m.bounderr = (n : Int) + 1 → errs.length = n + 1 → allPinned m errs = true →
      (motorLoop m errs).sentPerPass = List.replicate n [] ++ [[RES_ERR]] ∧
      (motorLoop m errs).locals = MotorLocals.fresh ∧
      (motorLoop m errs).looping = false ∧
      ∃ ws, ws.length = n ∧ (motorLoop m errs).pwmPerPass = ws ++ [(none, none)] := by
  induction n with
  | zero =>
    intro m errs hb hl hp
    match errs, hl with
    | [e], _ =>
      simp only [allPinned, Bool.and_true] at hp
      have h0 : (checkBound (pidControl (readErrors m e.1 e.2))).bounderr = 0 := by
        rw [pinnedPass_bounderr m e hp, hb]; simp
      simp only [motorLoop, motorBody_fault m e.1 e.2 h0, faultReset_eq_fresh]
      exact ⟨rfl, rfl, rfl, [], rfl, rfl⟩
  | succ k ih =>
    intro m errs hb hl hp
    match errs, hl with
    | e :: es, hl =>
      simp only [allPinned, Bool.and_eq_true] at hp
      have hb1 : (checkBound (pidControl (readErrors m e.1 e.2))).bounderr = (k : Int) + 1 := by
        rw [pinnedPass_bounderr m e hp.1, hb]; push_cast; ring
      have hne : (checkBound (pidControl (readErrors m e.1 e.2))).bounderr ≠ 0 := by
        rw [hb1]; omega
      have hbody := motorBody_pass m e.1 e.2 hne
      have hes : es.length = k + 1 := by simpa using hl
      have hp2 := hp.2
      rw [hbody] at hp2
      have hb2 : (storePrev (checkBound (pidControl (readErrors m e.1 e.2)))).bounderr
          = (k : Int) + 1 := hb1
      obtain ⟨h1, h2, h3, ws, h4, h5⟩ := ih _ es hb2 hes hp2
      simp only [motorLoop, hbody, if_true]
      refine ⟨?_, h2, h3,
        (some (checkBound (pidControl (readErrors m e.1 e.2))).phipulse,
          some (checkBound (pidControl (readErrors m e.1 e.2))).thtpulse) :: ws, ?_, ?_⟩
      · rw [h1]; simp [List.replicate_succ]
      · simp [h4]
      · rw [h5]; rfl

set_option maxRecDepth 100000 in
set_option maxHeartbeats 4000000 in
/-- Thirty passes with a pan error of -100 and a tilt error of 0, from the
fresh locals: the pan pulse is at `PHIMIN` after the clamping stage of each. -/
theorem allPinned_minus100 :
    allPinned MotorLocals.fresh (List.replicate 30 (-100, 0)) = true := by
  norm_num [List.replicate, allPinned, pinnedPass, motorBody, checkBound, pidControl, readErrors,
    storePrev, faultReset, atBound, clampPhi, clampTht, pidIncrement, floatToInt,
    MotorLocals.fresh, PHIMIN, PHIMAX, THTMIN, THTMAX, PHICENTER, THTCENTER, BOUNDCOUNT, dt, kp, ki]

theorem motorLoop_append_of_left (m : MotorLocals) (es more : List (Int × Int))
    (h : (motorLoop m es).looping = false) : motorLoop m (es ++ more) = motorLoop m es := by
  induction es generalizing m with
  | nil => simp [motorLoop] at h
  | cons e es ih =>
    by_cases hl : (motorBody m e.1 e.2).looping = true
    · simp only [motorLoop, hl, if_true] at h
      have ih1 := ih _ h
      simp only [List.cons_append, motorLoop, hl, if_true]
      simp only [List.append_eq] at ih1 ⊢
      rw [ih1]
    · simp [motorLoop, hl]

/-! ## The saturation fault under any float arithmetic -/

theorem motorBodyA_fault (A : FloatArith) (m : MotorLocals) (phierr thterr : Int)
    (h : (checkBound (pidControlA A (readErrorsA A m phierr thterr))).bounderr = 0) :
    motorBodyA A m phierr thterr =
      { locals := faultReset (checkBound (pidControlA A (readErrorsA A m phierr thterr)))
        looping := false
        sent := [RES_ERR]
        tim2ccr4 := none
        tim3ccr3 := none
        pg3set := true } := by
  simp [motorBodyA, h]

theorem motorBodyA_pass (A : FloatArith) (m : MotorLocals) (phierr thterr : Int)
    (h : (checkBound (pidControlA A (readErrorsA A m phierr thterr))).bounderr ≠ 0) :
    motorBodyA A m phierr thterr =
      { locals := storePrev (checkBound (pidControlA A (readErrorsA A m phierr thterr)))
        looping := true
        sent := []
        tim2ccr4 := some (checkBound (pidControlA A (readErrorsA A m phierr thterr))).thtpulse
        tim3ccr3 := some (checkBound (pidControlA A (readErrorsA A m phierr thterr))).phipulse
        pg3set := false } := by
  simp [motorBodyA, h]

/-- The clamping stage lowers the budget by one exactly when the pass is
pinned, whatever the arithmetic: `pidControlA` does not assign `bounderr`. -/
theorem checkBoundA_bounderr (A : FloatArith) (m : MotorLocals) (e : Int × Int) :
    (checkBound (pidControlA A (readErrorsA A m e.1 e.2))).bounderr =
      if pinnedPassA A m e then m.bounderr - 1 else m.bounderr := rfl

/-- The exact-arithmetic definitions are the `exactArith` instances. -/
theorem motorBodyA_exactArith (m : MotorLocals) (phierr thterr : Int) :
    motorBodyA exactArith m phierr thterr = motorBody m phierr thterr := rfl

theorem motorLoopA_exactArith (errs : List (Int × Int)) :
    ∀ m : MotorLocals, motorLoopA exactArith m errs = motorLoop m errs := by
  induction errs with
  | nil => intro m; rfl
  | cons e es ih =>
    intro m
    simp only [motorLoopA, motorLoop, motorBodyA_exactArith, ih]

theorem allPinnedA_exactArith (errs : List (Int × Int)) :
    ∀ m : MotorLocals, allPinnedA exactArith m errs = allPinned m errs := by
  induction errs with
  | nil => intro m; rfl
  | cons e es ih =>
    intro m
    simp only [allPinnedA, allPinned, motorBodyA_exactArith, ih]
    rfl

/-- A run of `n + 1` pinned passes that starts with a budget of `n + 1`, under
any arithmetic: the first `n` passes transmit nothing, the last one transmits
`RES_ERR`, resets the locals and leaves the loop. -/
theorem motorLoopA_pinned (A : FloatArith) (n : Nat) :
    ∀ (m : MotorLocals) (errs : List (Int × Int)),
      m.bounderr = (n : Int) + 1 → errs.length = n + 1 → allPinnedA A m errs = true →
      (motorLoopA A m errs).sentPerPass = List.replicate n [] ++ [[RES_ERR]] ∧
      (motorLoopA A m errs).locals = MotorLocals.fresh ∧
      (motorLoopA A m errs).looping = false := by
  induction n with
  | zero =>
    intro m errs hb hl hp
    match errs, hl with
    | [e], _ =>
      simp only [allPinnedA, Bool.and_true] at hp
      have h0 : (checkBound (pidControlA A (readErrorsA A m e.1 e.2))).bounderr = 0 := by
        rw [checkBoundA_bounderr, hp, if_pos rfl, hb]; simp
      simp only [motorLoopA, motorBodyA_fault A m e.1 e.2 h0, faultReset_eq_fresh]
      exact ⟨rfl, rfl, rfl⟩
  | succ k ih =>
    intro m errs hb hl hp
    match errs, hl with
    | e :: es, hl =>
      simp only [allPinnedA, Bool.and_eq_true] at hp
      have hb1 : (checkBound (pidControlA A (readErrorsA A m e.1 e.2))).bounderr
          = (k : Int) + 1 := by
        rw [checkBoundA_bounderr, hp.1, if_pos rfl, hb]; push_cast; ring
      have hne : (checkBound (pidControlA A (readErrorsA A m e.1 e.2))).bounderr ≠ 0 := by
        rw [hb1]; omega
      have hbody := motorBodyA_pass A m e.1 e.2 hne
      have hes : es.length = k + 1 := by simpa using hl
      have hp2 := hp.2
      rw [hbody] at hp2
      have hb2 : (storePrev (checkBound (pidControlA A (readErrorsA A m e.1 e.2)))).bounderr
          = (k : Int) + 1 := hb1
      obtain ⟨h1, h2, h3⟩ := ih _ es hb2 hes hp2
      simp only [motorLoopA, hbody, if_true]
      refine ⟨?_, h2, h3⟩
      rw [h1]; simp [List.replicate_succ]

/-- The binary32 arithmetic is not the exact one, and the difference reaches
the saturation test.  From the fresh locals under `binary32`: a unit pan
error has the derivative `15728639 / 524288`, just below 30; the pan errors
-100, 0 store 150, 448 where exact arithmetic stores 150, 449; the pan errors
-126, -121, 77 store 150, 150, 749 (two pinned passes, budget 28) where exact
arithmetic stores 150, 150, 750 (three pinned passes); with 127 appended twenty-seven times every pass is pinned under exact
arithmetic but not under `binary32`, where the thirty passes send nothing,
stay in the loop and leave one unit of budget. -/
theorem binary32_differs_from_exactArith :
    (pidControlA binary32 (readErrorsA binary32 MotorLocals.fresh 1 0)).diffphi
      = 15728639 / 524288 ∧
    (motorLoopA binary32 MotorLocals.fresh [(-100, 0), (0, 0)]).pwmPerPass
      = [(some 150, some 449), (some 448, some 449)] ∧
    (motorLoopA exactArith MotorLocals.fresh [(-100, 0), (0, 0)]).pwmPerPass
      = [(some 150, some 449), (some 449, some 449)] ∧
    (motorLoopA binary32 MotorLocals.fresh [(-126, 0), (-121, 0), (77, 0)]).pwmPerPass
      = [(some 150, some 449), (some 150, some 449), (some 749, some 449)] ∧
    (motorLoopA exactArith MotorLocals.fresh [(-126, 0), (-121, 0), (77, 0)]).pwmPerPass
      = [(some 150, some 449), (some 150, some 449), (some 750, some 449)] ∧
    pinnedCountA binary32 MotorLocals.fresh [(-126, 0), (-121, 0), (77, 0)] = 2 ∧
    pinnedCountA exactArith MotorLocals.fresh [(-126, 0), (-121, 0), (77, 0)] = 3 ∧
    (motorLoopA binary32 MotorLocals.fresh [(-126, 0), (-121, 0), (77, 0)]).locals.bounderr
      = 28 ∧
    allPinnedA exactArith MotorLocals.fresh
      ([(-126, 0), (-121, 0), (77, 0)] ++ List.replicate 27 (127, 0)) = true ∧
    allPinnedA binary32 MotorLocals.fresh
      ([(-126, 0), (-121, 0), (77, 0)] ++ List.replicate 27 (127, 0)) = false ∧
    (motorLoopA binary32 MotorLocals.fresh
      ([(-126, 0), (-121, 0), (77, 0)] ++ List.replicate 27 (127, 0))).looping = true ∧
    (motorLoopA binary32 MotorLocals.fresh
      ([(-126, 0), (-121, 0), (77, 0)] ++ List.replicate 27 (127, 0))).sentPerPass.flatten
        = [] ∧
    (motorLoopA binary32 MotorLocals.fresh
      ([(-126, 0), (-121, 0), (77, 0)] ++ List.replicate 27 (127, 0))).locals.bounderr = 1 := by
  refine ⟨?_, ?_, ?_, ?_, ?_, ?_, ?_, ?_, ?_, ?_, ?_, ?_, ?_⟩ <;> decide!

/-- C2. Saturation fault, under any float arithmetic `A` and so under that of
the target: from the fresh locals, over any thirty passes each of which ends
its clamping stage (computed with `A`) with an axis pulse at a bound, the
first 29 passes transmit nothing, the thirtieth transmits the single byte
`RES_ERR = 0`, and the locals it leaves are the fresh ones: both pulses at
center, both integrals and both previous errors zero, the budget back at 30. -/
theorem C2_saturation_fault (A : FloatArith) (errs : List (Int × Int))
    (hlen : errs.length = 30) (hpin : allPinnedA A MotorLocals.fresh errs = true) :
    (motorLoopA A MotorLocals.fresh errs).sentPerPass = List.replicate 29 [] ++ [[0]] ∧
    (motorLoopA A MotorLocals.fresh errs).sentPerPass.flatten = [0] ∧
    (motorLoopA A MotorLocals.fresh errs).looping = false ∧
    (motorLoopA A MotorLocals.fresh errs).locals.phipulse = 449 ∧
    (motorLoopA A MotorLocals.fresh errs).locals.thtpulse = 449 ∧
    (motorLoopA A MotorLocals.fresh errs).locals.integphi = 0 ∧
    (motorLoopA A MotorLocals.fresh errs).locals.integtht = 0 ∧
    (motorLoopA A MotorLocals.fresh errs).locals.prevphierr = 0 ∧
    (motorLoopA A MotorLocals.fresh errs).locals.prevthterr = 0 ∧
    (motorLoopA A MotorLocals.fresh errs).locals.bounderr = 30 ∧
    (motorLoopA A MotorLocals.fresh errs).locals = MotorLocals.fresh := by
  obtain ⟨h1, h2, h3⟩ := motorLoopA_pinned A 29 MotorLocals.fresh errs rfl hlen hpin
  rw [h1, h2]
  refine ⟨rfl, ?_, h3, rfl, rfl, rfl, rfl, rfl, rfl, rfl, rfl⟩
  simp [RES_ERR, List.replicate]

/-- C2 at the scripted input, under `binary32` and under `exactArith`: thirty
MOVE activations with `pan_error = -100` and `tilt_error = 0` are all pinned
and produce exactly one fault byte. -/
theorem C2_saturation_fault_minus100 :
    (allPinnedA binary32 MotorLocals.fresh (List.replicate 30 (-100, 0)) = true ∧
      (motorLoopA binary32 MotorLocals.fresh (List.replicate 30 (-100, 0))).sentPerPass.flatten
        = [0] ∧
      (motorLoopA binary32 MotorLocals.fresh (List.replicate 30 (-100, 0))).locals
        = MotorLocals.fresh) ∧
    (allPinnedA exactArith MotorLocals.fresh (List.replicate 30 (-100, 0)) = true ∧
      (motorLoopA exactArith MotorLocals.fresh (List.replicate 30 (-100, 0))).sentPerPass.flatten
        = [0] ∧
      (motorLoopA exactArith MotorLocals.fresh (List.replicate 30 (-100, 0))).locals
        = MotorLocals.fresh) :=
  ⟨⟨by decide!,
    (C2_saturation_fault binary32 (List.replicate 30 (-100, 0)) (by simp) (by decide!)).2.1,
    (C2_saturation_fault binary32 (List.replicate 30 (-100, 0)) (by simp)
      (by decide!)).2.2.2.2.2.2.2.2.2.2⟩,
   ⟨by decide!,
    (C2_saturation_fault exactArith (List.replicate 30 (-100, 0)) (by simp) (by decide!)).2.1,
    (C2_saturation_fault exactArith (List.replicate 30 (-100, 0)) (by simp)
      (by decide!)).2.2.2.2.2.2.2.2.2.2⟩⟩

/-- C3 (evaluated on the code). After the thirty saturated passes the fault
pass has left the `for (;;)`: a thirty-first activation is not served (thirty
passes ran, none after the fault).  In the machine, the statement that
transmits `RES_ERR` moves the task to the point after the loop, and from there
it takes no statement even with `moveSem` signalled. -/
theorem C3_fault_leaves_loop :
    (motorLoop MotorLocals.fresh (List.replicate 30 (-100, 0) ++ [(10, 0)])).looping = false ∧
    (motorLoop MotorLocals.fresh (List.replicate 30 (-100, 0) ++ [(10, 0)])).sentPerPass.length
      = 30 ∧
    (motorLoop MotorLocals.fresh (List.replicate 30 (-100, 0) ++ [(10, 0)])).pwmPerPass.length
      = 30 ∧
    (∀ s : Sys, (motorStep { s with motorPc := .faultSend }).map (fun s1 => s1.motorPc)
      = some .returned) ∧
    (∀ s : Sys, motorStep { s with motorPc := .returned, moveSem := 1 } = none) := by
  obtain ⟨h1, -, h3, ws, h4, h5⟩ :=
    motorLoop_pinned 29 MotorLocals.fresh (List.replicate 30 (-100, 0)) rfl (by simp)
      allPinned_minus100
  rw [motorLoop_append_of_left _ _ _ h3, h1, h5]
  refine ⟨h3, by simp, by simp [h4], fun s => rfl, fun s => rfl⟩

/-! ## One iteration of the Command Task -/

theorem runThread_succ (t : Thread) (n : Nat) (s : Sys) :
    runThread t (n + 1) s = (runThread t n s).bind (threadStep t) := by
  induction n generalizing s with
  | zero => simp [runThread]
  | succ k ih =>
    show (threadStep t s).bind (runThread t (k + 1)) = _
    cases h : threadStep t s with
    | none => simp [runThread, h]
    | some s1 =>
      simp only [Option.some_bind, ih s1]
      simp [runThread, h]

theorem toInt8_unknown (op : Nat) (h3 : 3 ≤ op) (h255 : op ≤ 255) :
    toInt8 op ≠ MOVEOP ∧ toInt8 op ≠ TRIGOP ∧ toInt8 op ≠ TUNEOP := by
  have hm : op % 256 = op := Nat.mod_eq_of_lt (by omega)
  simp only [toInt8, hm, MOVEOP, TRIGOP, TUNEOP]
  split_ifs <;> omega

/-- The first ten statements of an iteration of `StartUartTask` (main.c:566-577)
on a packet `b0 b1 op`, with both mutexes free: the three bytes are received,
the indicator is set, and the two errors are copied into `phierr`/`thterr`
under their mutexes; the task is then at the dispatch on `oper`. -/
theorem uart_packet_received (s : Sys) (b0 b1 op : Nat) (rest : List Nat)
    (hpc : s.uartPc = .recvPhi) (hrx : s.rxLine = b0 :: b1 :: op :: rest)
    (hphi : s.phiDirSem = 1) (htht : s.thetaDirSem = 1) :
    runThread .uartTask 10 s = some
      { s with
        rxLine := rest
        uartphierr := toInt8 b0
        uartthterr := toInt8 b1
        oper := toInt8 op
        phierr := toInt8 b0
        thterr := toInt8 b1
        pg3 := true
        uartPc := .dispatch
        log := s.log ++
          [(.uartTask, .recv b0), (.uartTask, .recv b1), (.uartTask, .writePG3 true),
           (.uartTask, .wait .phiDirSem), (.uartTask, .setPhierr (toInt8 b0)),
           (.uartTask, .release .phiDirSem), (.uartTask, .wait .thetaDirSem),
           (.uartTask, .setThterr (toInt8 b1)), (.uartTask, .release .thetaDirSem),
           (.uartTask, .recv op)] } := by
  obtain ⟨phiDirSem, thetaDirSem, triggerSem, trigendSem, moveSem, moveendSem, uartphierr,
    uartthterr, oper, phierr, thterr, rxLine, pg3, ld3, tim2ccr4, tim3ccr3, tim3ccr4, uartPc,
    motorPc, motor, trigPc, log⟩ := s
  simp only at hpc hrx hphi htht
  subst hpc hrx hphi htht
  have h10 : runThread .uartTask 10 (Sys.mk 1 1 triggerSem trigendSem moveSem moveendSem
      uartphierr uartthterr oper phierr thterr (b0 :: b1 :: op :: rest) pg3 ld3 tim2ccr4 tim3ccr3
      tim3ccr4 .recvPhi motorPc motor trigPc log) =
    some (Sys.mk 1 1 triggerSem trigendSem moveSem moveendSem (toInt8 b0) (toInt8 b1) (toInt8 op)
      (toInt8 b0) (toInt8 b1) rest true ld3 tim2ccr4 tim3ccr3 tim3ccr4 .dispatch motorPc motor
      trigPc
      (log ++ [(.uartTask, .recv b0)] ++ [(.uartTask, .recv b1)] ++
        [(.uartTask, .writePG3 true)] ++ [(.uartTask, .wait .phiDirSem)] ++
        [(.uartTask, .setPhierr (toInt8 b0))] ++ [(.uartTask, .release .phiDirSem)] ++
        [(.uartTask, .wait .thetaDirSem)] ++ [(.uartTask, .setThterr (toInt8 b1))] ++
        [(.uartTask, .release .thetaDirSem)] ++ [(.uartTask, .recv op)])) := rfl
  rw [h10]
  simp

theorem toInt8_signed (b : Nat) (h : b ≤ 255) :
    toInt8 b = if b < 128 then (b : Int) else (b : Int) - 256 := by
  have hm : b % 256 = b := Nat.mod_eq_of_lt (by omega)
  simp only [toInt8, hm]

/-- C6 (as stated, refuted). After the Fire Task's pass at boot the shared
errors are 0 and the indicator is low; the Command Task's iteration on the
packet `5 7 3` (unknown opcode 3) leaves `phierr = 5`, `thterr = 7` and the
indicator high: the iteration does change state. -/
theorem C6_unknown_opcode_changes_state :
    (runSchedule (List.replicate 5 .trigTask) (boot [5, 7, 3])).map
      (fun s => (s.phierr, s.thterr, s.pg3, s.uartPc)) = some (0, 0, false, .recvPhi) ∧
    (runSchedule (List.replicate 5 .trigTask ++ List.replicate 11 .uartTask) (boot [5, 7, 3])).map
      (fun s => (s.phierr, s.thterr, s.pg3, s.uartPc)) = some (5, 7, true, .recvPhi) := by
  constructor <;> decide

/-- C6 (amended). For a packet whose opcode byte is in `3..255`, one iteration
of the Command Task (both mutexes free) takes its eleven statements without
blocking and ends at the top of the loop with the rest of the line to read;
it overwrites `phierr`/`thterr` with the packet's two signed bytes and sets the
indicator; the timer registers, the six semaphores and the other tasks are as
before, and no byte is transmitted. -/
theorem C6_unknown_opcode (s : Sys) (b0 b1 op : Nat) (rest : List Nat)
    (hpc : s.uartPc = .recvPhi) (hrx : s.rxLine = b0 :: b1 :: op :: rest)
    (hphi : s.phiDirSem = 1) (htht : s.thetaDirSem = 1)
    (h3 : 3 ≤ op) (h255 : op ≤ 255) :
    ∃ s1, runThread .uartTask 11 s = some s1 ∧
      s1 = { s with
        rxLine := rest
        uartphierr := toInt8 b0
        uartthterr := toInt8 b1
        oper := toInt8 op
        phierr := toInt8 b0
        thterr := toInt8 b1
        pg3 := true
        log := s.log ++
          [(.uartTask, .recv b0), (.uartTask, .recv b1), (.uartTask, .writePG3 true),
           (.uartTask, .wait .phiDirSem), (.uartTask, .setPhierr (toInt8 b0)),
           (.uartTask, .release .phiDirSem), (.uartTask, .wait .thetaDirSem),
           (.uartTask, .setThterr (toInt8 b1)), (.uartTask, .release .thetaDirSem),
           (.uartTask, .recv op)] } ∧
      s1.uartPc = .recvPhi ∧ s1.rxLine = rest ∧
      s1.phierr = toInt8 b0 ∧ s1.thterr = toInt8 b1 ∧ s1.pg3 = true ∧
      s1.tim2ccr4 = s.tim2ccr4 ∧ s1.tim3ccr3 = s.tim3ccr3 ∧ s1.tim3ccr4 = s.tim3ccr4 ∧
      s1.phiDirSem = s.phiDirSem ∧ s1.thetaDirSem = s.thetaDirSem ∧
      s1.triggerSem = s.triggerSem ∧ s1.trigendSem = s.trigendSem ∧
      s1.moveSem = s.moveSem ∧ s1.moveendSem = s.moveendSem ∧
      s1.motor = s.motor ∧ s1.motorPc = s.motorPc ∧ s1.trigPc = s.trigPc ∧
      sentBytes s1 = sentBytes s := by
  obtain ⟨hu0, hu1, hu2⟩ := toInt8_unknown op h3 h255
  refine ⟨_, ?_, rfl, ?_⟩
  · rw [runThread_succ, uart_packet_received s b0 b1 op rest hpc hrx hphi htht]
    simp [threadStep, uartStep, hu0, hu1, hu2, hpc]
  · simp [hpc, sentBytes, List.filterMap_append]

/-- C6 (amended) at the packet `5 7 3` received right after `boot`. -/
theorem C6_unknown_opcode_at_boot :
    ∃ s1, runThread .uartTask 11 (boot [5, 7, 3]) = some s1 ∧
      s1.uartPc = .recvPhi ∧ s1.phierr = 5 ∧ s1.thterr = 7 ∧ s1.pg3 = true ∧
      s1.tim2ccr4 = 0 ∧ s1.tim3ccr3 = 449 ∧ s1.tim3ccr4 = 449 ∧ sentBytes s1 = [] := by
  obtain ⟨s1, h1, -, h3, -, h5, h6, h7, h8, h9, h10, -, -, -, -, -, -, -, -, -, h20⟩ :=
    C6_unknown_opcode (boot [5, 7, 3]) 5 7 3 [] rfl rfl rfl rfl (by decide) (by decide)
  exact ⟨s1, h1, h3, h5, h6, h7, h8, h9, h10, h20⟩

/-- C7. RECENTER: for a packet with opcode 2 and any locals of the Control
Task, one iteration of the Command Task (both mutexes free) takes its twelve
statements without blocking and ends at the top of the loop; it stores
`450 - 1 = 449 = THTCENTER = PHICENTER` to `TIM2->CCR4` and `TIM3->CCR3`, the
registers the Control Task stores its tilt and pan pulses to; it transmits no
byte, leaves `moveSem`, `triggerSem` and `trigendSem` as they were, and does
not touch the Control Task's locals. -/
theorem C7_recenter (s : Sys) (b0 b1 : Nat) (rest : List Nat)
    (hpc : s.uartPc = .recvPhi) (hrx : s.rxLine = b0 :: b1 :: 2 :: rest)
    (hphi : s.phiDirSem = 1) (htht : s.thetaDirSem = 1) :
    ∃ s1, runThread .uartTask 12 s = some s1 ∧
      s1.uartPc = .recvPhi ∧ s1.rxLine = rest ∧
      s1.tim2ccr4 = 449 ∧ s1.tim3ccr3 = 449 ∧
      s1.tim2ccr4 = THTCENTER ∧ s1.tim3ccr3 = PHICENTER ∧
      (motorStep { s with motorPc := .setTilt }).map (fun s2 => s2.tim2ccr4)
        = some s.motor.thtpulse ∧
      (motorStep { s with motorPc := .setPan }).map (fun s2 => s2.tim3ccr3)
        = some s.motor.phipulse ∧
      sentBytes s1 = sentBytes s ∧
      s1.moveSem = s.moveSem ∧ s1.triggerSem = s.triggerSem ∧ s1.trigendSem = s.trigendSem ∧
      s1.tim3ccr4 = s.tim3ccr4 ∧
      s1.motor = s.motor ∧ s1.motorPc = s.motorPc ∧ s1.trigPc = s.trigPc ∧
      s1.log = s.log ++
        [(.uartTask, .recv b0), (.uartTask, .recv b1), (.uartTask, .writePG3 true),
         (.uartTask, .wait .phiDirSem), (.uartTask, .setPhierr (toInt8 b0)),
         (.uartTask, .release .phiDirSem), (.uartTask, .wait .thetaDirSem),
         (.uartTask, .setThterr (toInt8 b1)), (.uartTask, .release .thetaDirSem),
         (.uartTask, .recv 2), (.uartTask, .tim2ccr4 449), (.uartTask, .tim3ccr3 449)] := by
  have h12 : runThread .uartTask 12 s = some
      { s with
        rxLine := rest
        uartphierr := toInt8 b0
        uartthterr := toInt8 b1
        oper := toInt8 2
        phierr := toInt8 b0
        thterr := toInt8 b1
        pg3 := true
        tim2ccr4 := 449
        tim3ccr3 := 449
        log := s.log ++
          [(.uartTask, .recv b0), (.uartTask, .recv b1), (.uartTask, .writePG3 true),
           (.uartTask, .wait .phiDirSem), (.uartTask, .setPhierr (toInt8 b0)),
           (.uartTask, .release .phiDirSem), (.uartTask, .wait .thetaDirSem),
           (.uartTask, .setThterr (toInt8 b1)), (.uartTask, .release .thetaDirSem),
           (.uartTask, .recv 2), (.uartTask, .tim2ccr4 449), (.uartTask, .tim3ccr3 449)] } := by
    rw [runThread_succ, runThread_succ, uart_packet_received s b0 b1 2 rest hpc hrx hphi htht]
    have h2 : toInt8 2 = 2 := by decide
    simp [threadStep, uartStep, h2, MOVEOP, TRIGOP, TUNEOP, hpc, Sys.emit]
  refine ⟨_, h12, ?_⟩
  simp [hpc, sentBytes, List.filterMap_append, THTCENTER, PHICENTER, motorStep, Sys.emit]

/-- C7 at the packet `5 7 2` received right after `boot`. -/
theorem C7_recenter_at_boot :
    ∃ s1, runThread .uartTask 12 (boot [5, 7, 2]) = some s1 ∧
      s1.uartPc = .recvPhi ∧ s1.tim2ccr4 = 449 ∧ s1.tim3ccr3 = 449 ∧ sentBytes s1 = [] ∧
      s1.moveSem = 1 ∧ s1.triggerSem = 1 ∧ s1.motor = MotorLocals.fresh := by
  obtain ⟨s1, h1, h2, -, h4, h5, -, -, -, -, h10, h11, h12, -, -, h15, -⟩ :=
    C7_recenter (boot [5, 7, 2]) 5 7 [] rfl rfl rfl rfl
  exact ⟨s1, h1, h2, h4, h5, h10, h11, h12, h15⟩

/-- C9. Packet decoding and dispatch order: on a packet `b0 b1 op` (both
mutexes free) the first ten statements of the Command Task's iteration store
the two bytes, read as signed 8-bit values, into `phierr` and `thterr` and
reach the dispatch with `moveSem`, `triggerSem` and `trigendSem` untouched.
With `op = 0` the eleventh statement releases `moveSem`, and nothing else, and
the task is back at the top of its loop; with `op = 1` it releases
`triggerSem`, and nothing else, and after toggling the LED the task is at
`osSemaphoreWait(trigendSem)`, where it proceeds only by taking a token. -/
theorem C9_decode_and_dispatch (s : Sys) (b0 b1 op : Nat) (rest : List Nat)
    (hpc : s.uartPc = .recvPhi) (hrx : s.rxLine = b0 :: b1 :: op :: rest)
    (hphi : s.phiDirSem = 1) (htht : s.thetaDirSem = 1)
    (hb0 : b0 ≤ 255) (hb1 : b1 ≤ 255) :
    (∃ s10, runThread .uartTask 10 s = some s10 ∧
      s10.uartPc = .dispatch ∧
      s10.phierr = (if b0 < 128 then (b0 : Int) else (b0 : Int) - 256) ∧
      s10.thterr = (if b1 < 128 then (b1 : Int) else (b1 : Int) - 256) ∧
      s10.moveSem = s.moveSem ∧ s10.triggerSem = s.triggerSem ∧
      s10.trigendSem = s.trigendSem ∧
      s10.log = s.log ++
        [(.uartTask, .recv b0), (.uartTask, .recv b1), (.uartTask, .writePG3 true),
         (.uartTask, .wait .phiDirSem), (.uartTask, .setPhierr (toInt8 b0)),
         (.uartTask, .release .phiDirSem), (.uartTask, .wait .thetaDirSem),
         (.uartTask, .setThterr (toInt8 b1)), (.uartTask, .release .thetaDirSem),
         (.uartTask, .recv op)] ∧
      match op with
      | 0 =>
        ∃ s11, uartStep s10 = some s11 ∧
          s11 = { s10 with
            moveSem := 1
            uartPc := .recvPhi
            log := s10.log ++ [(.uartTask, .release .moveSem)] }
      | 1 =>
        ∃ s11 s12, uartStep s10 = some s11 ∧
          s11 = { s10 with
            triggerSem := 1
            uartPc := .toggle1
            log := s10.log ++ [(.uartTask, .release .triggerSem)] } ∧
          uartStep s11 = some s12 ∧
          s12 = { s11 with
            ld3 := !s11.ld3
            uartPc := .waitTrigend
            log := s11.log ++ [(.uartTask, .toggleLD3)] } ∧
          uartStep s12 = (if 0 < s12.trigendSem then
            some { s12 with
              trigendSem := s12.trigendSem - 1
              uartPc := .toggle2
              log := s12.log ++ [(.uartTask, .wait .trigendSem)] }
            else none)
      | _ => True) := by
  refine ⟨_, uart_packet_received s b0 b1 op rest hpc hrx hphi htht, rfl, ?_, ?_, rfl, rfl, rfl,
    rfl, ?_⟩
  · exact toInt8_signed b0 hb0
  · exact toInt8_signed b1 hb1
  · match op with
    | 0 =>
      have h0 : toInt8 0 = 0 := by decide
      simp [uartStep, h0, MOVEOP, osSemaphoreRelease, Sys.setSem, Sys.emit]
    | 1 =>
      have h1 : toInt8 1 = 1 := by decide
      simp only [uartStep, h1, MOVEOP, TRIGOP, osSemaphoreRelease, Sys.setSem, Sys.emit,
        osSemaphoreWait, Sys.sem]
      refine ⟨_, _, by simp, rfl, rfl, rfl, ?_⟩
      by_cases ht : 0 < s.trigendSem <;> simp [ht]
    | (n + 2) => trivial

/-- C9 at the packets `200 7 0` (MOVE) and `5 7 1` (FIRE) received right after
`boot`: the pan byte 200 is stored as -56; MOVE leaves the task at the top of
its loop with `moveSem` signalled; FIRE leaves `triggerSem` signalled. -/
theorem C9_decode_and_dispatch_at_boot :
    (∃ s10, runThread .uartTask 10 (boot [200, 7, 0]) = some s10 ∧
      s10.phierr = -56 ∧ s10.thterr = 7 ∧
      (uartStep s10).map (fun s11 => (s11.uartPc, s11.moveSem, s11.phierr, s11.thterr))
        = some (.recvPhi, 1, -56, 7)) ∧
    (∃ s10, runThread .uartTask 10 (boot [5, 7, 1]) = some s10 ∧
      s10.phierr = 5 ∧ s10.thterr = 7 ∧
      (uartStep s10).map (fun s11 => (s11.uartPc, s11.triggerSem, s11.phierr, s11.thterr))
        = some (.toggle1, 1, 5, 7)) := by
  constructor
  · obtain ⟨s10, h1, -, h3, h4, -, -, -, -, s11, h9, h10⟩ :=
      C9_decode_and_dispatch (boot [200, 7, 0]) 200 7 0 [] rfl rfl rfl rfl (by decide) (by decide)
    refine ⟨s10, h1, h3, h4, ?_⟩
    rw [h9, h10]
    simp [h3, h4]
  · obtain ⟨s10, h1, -, h3, h4, -, -, -, -, s11, s12, h9, h10, -⟩ :=
      C9_decode_and_dispatch (boot [5, 7, 1]) 5 7 1 [] rfl rfl rfl rfl (by decide) (by decide)
    refine ⟨s10, h1, h3, h4, ?_⟩
    rw [h9, h10]
    simp [h3, h4]

/-! ## The Fire Task under the scheduler -/

theorem motorStep_frame (s s1 : Sys) (h : motorStep s = some s1) :
    s1.trigPc = s.trigPc ∧ s1.triggerSem = s.triggerSem ∧ s1.tim3ccr4 = s.tim3ccr4 ∧
    fireDispatches s1 = fireDispatches s ∧ completionBytes s1 = completionBytes s ∧
    firePulses s1 = firePulses s ∧ fireCompletes s1 = fireCompletes s := by
  obtain ⟨phiDirSem, thetaDirSem, triggerSem, trigendSem, moveSem, moveendSem, uartphierr,
    uartthterr, oper, phierr, thterr, rxLine, pg3, ld3, tim2ccr4, tim3ccr3, tim3ccr4, uartPc,
    motorPc, motor, trigPc, log⟩ := s
  cases motorPc <;>
    simp only [motorStep, osSemaphoreWait, osSemaphoreRelease, Sys.sem, Sys.setSem, Sys.emit,
      Option.map_eq_some', Option.some.injEq, Option.ite_none_right_eq_some] at h
  all_goals first
    | (obtain ⟨a, ⟨ha, rfl⟩, rfl⟩ := h
       simp [fireDispatches, completionBytes, firePulses, fireCompletes])
    | (cases h)
    | (split_ifs at h <;>
        (simp only [Option.some.injEq] at h
         subst h
         simp [fireDispatches, completionBytes, firePulses, fireCompletes]))

theorem uartStep_frame (s s1 : Sys) (h : uartStep s = some s1) :
    s1.trigPc = s.trigPc ∧ s1.tim3ccr4 = s.tim3ccr4 ∧
    completionBytes s1 = completionBytes s ∧
    firePulses s1 = firePulses s ∧ fireCompletes s1 = fireCompletes s ∧
    ((s1.triggerSem = s.triggerSem ∧ fireDispatches s1 = fireDispatches s) ∨
      (s1.triggerSem = 1 ∧ fireDispatches s1 = fireDispatches s + 1)) := by
  obtain ⟨phiDirSem, thetaDirSem, triggerSem, trigendSem, moveSem, moveendSem, uartphierr,
    uartthterr, oper, phierr, thterr, rxLine, pg3, ld3, tim2ccr4, tim3ccr3, tim3ccr4, uartPc,
    motorPc, motor, trigPc, log⟩ := s
  cases uartPc <;> try cases rxLine
  all_goals
    simp only [uartStep, HAL_UART_Receive, osSemaphoreWait, osSemaphoreRelease, Sys.sem,
      Sys.setSem, Sys.emit, Option.map_eq_some', Option.some.injEq, Option.map_some',
      Option.map_none', Option.ite_none_right_eq_some] at h
  all_goals first
    | (obtain ⟨a, ⟨ha, rfl⟩, rfl⟩ := h
       simp [fireDispatches, completionBytes, firePulses, fireCompletes])
    | (cases h)
    | (split_ifs at h <;>
        (simp only [Option.some.injEq] at h
         subst h
         simp [fireDispatches, completionBytes, firePulses, fireCompletes]))


theorem fireInv_boot (input : List Nat) : FireInv (boot input) := by
  simp [FireInv, boot, osSemaphoreCreate, completionBytes, fireDispatches, firePulses,
    fireCompletes]

theorem trigStep_eq_none (s : Sys) (h : trigStep s = none) :
    s.trigPc = .waitTrigger ∧ s.triggerSem = 0 := by
  obtain ⟨phiDirSem, thetaDirSem, triggerSem, trigendSem, moveSem, moveendSem, uartphierr,
    uartthterr, oper, phierr, thterr, rxLine, pg3, ld3, tim2ccr4, tim3ccr3, tim3ccr4, uartPc,
    motorPc, motor, trigPc, log⟩ := s
  cases trigPc <;>
    simp [trigStep, osSemaphoreWait, Sys.sem] at h
  exact ⟨rfl, h⟩

theorem fireInv_trigStep (s s1 : Sys) (hi : FireInv s) (h : trigStep s = some s1) :
    FireInv s1 := by
  obtain ⟨phiDirSem, thetaDirSem, triggerSem, trigendSem, moveSem, moveendSem, uartphierr,
    uartthterr, oper, phierr, thterr, rxLine, pg3, ld3, tim2ccr4, tim3ccr3, tim3ccr4, uartPc,
    motorPc, motor, trigPc, log⟩ := s
  cases trigPc <;>
    simp only [trigStep, osSemaphoreWait, osSemaphoreRelease, Sys.sem, Sys.setSem, Sys.emit,
      Option.map_eq_some', Option.some.injEq, Option.ite_none_right_eq_some] at h
  all_goals first
    | (obtain ⟨a, ⟨ha, rfl⟩, rfl⟩ := h
       simp only [FireInv, fireDispatches, completionBytes, firePulses, fireCompletes] at hi ⊢
       simp at hi ⊢
       omega)


theorem fireInv_uartStep (s s1 : Sys) (hi : FireInv s) (hb : trigStep s = none)
    (h : uartStep s = some s1) : FireInv s1 := by
  obtain ⟨hpc, hsem⟩ := trigStep_eq_none s hb
  obtain ⟨h1, h2, h3, h4, h5, h6⟩ := uartStep_frame s s1 h
  simp only [FireInv, hpc] at hi
  simp only [FireInv, h1, hpc, h2, h3, h4, h5]
  rcases hi with hi | hi
  · rcases h6 with ⟨h6, h7⟩ | ⟨h6, h7⟩
    · left; rw [h6, h7]; exact hi
    · right; rw [h6, h7]; exact ⟨rfl, hi.2.1, hi.2.2.1, hi.2.2.2.1⟩
  · omega

theorem fireInv_motorStep (s s1 : Sys) (hi : FireInv s) (h : motorStep s = some s1) :
    FireInv s1 := by
  obtain ⟨h1, h2, h3, h4, h5, h6, h7⟩ := motorStep_frame s s1 h
  simp only [FireInv, h1, h2, h3, h4, h5, h6, h7]
  exact hi

theorem uartTimeout_frame (s s1 : Sys) (h : uartTimeout s = some s1) :
    s1.trigPc = s.trigPc ∧ s1.triggerSem = s.triggerSem ∧ s1.tim3ccr4 = s.tim3ccr4 ∧
    fireDispatches s1 = fireDispatches s ∧ completionBytes s1 = completionBytes s ∧
    firePulses s1 = firePulses s ∧ fireCompletes s1 = fireCompletes s := by
  obtain ⟨phiDirSem, thetaDirSem, triggerSem, trigendSem, moveSem, moveendSem, uartphierr,
    uartthterr, oper, phierr, thterr, rxLine, pg3, ld3, tim2ccr4, tim3ccr3, tim3ccr4, uartPc,
    motorPc, motor, trigPc, log⟩ := s
  cases uartPc <;>
    simp only [uartTimeout, Sys.emit, Option.some.injEq] at h
  all_goals first
    | (subst h
       simp [fireDispatches, completionBytes, firePulses, fireCompletes])
    | (cases h)

/-- An idle line falls through with stale values: with nothing ever sent,
after the Fire Task's pass at boot the three receives of the Command Task's
iteration time out, `oper` is still its initial 0, and the dispatch releases
`moveSem` as for a MOVE packet. -/
theorem idle_line_dispatches_stale_opcode :
    ((((((runSchedule (List.replicate 5 .trigTask) (boot [])).bind uartTimeout).bind
      uartTimeout).bind (runThread .uartTask 7)).bind uartTimeout).bind uartStep).map
        (fun s => (s.uartPc, s.oper, s.log.count (.uartTask, .recvTimeout),
          s.log.count (.uartTask, .release .moveSem)))
      = some (.recvPhi, 0, 3, 1) := by
  decide

theorem fireInv_uartTimeout (s s1 : Sys) (hi : FireInv s) (h : uartTimeout s = some s1) :
    FireInv s1 := by
  obtain ⟨h1, h2, h3, h4, h5, h6, h7⟩ := uartTimeout_frame s s1 h
  simp only [FireInv, h1, h2, h3, h4, h5, h6, h7]
  exact hi

theorem fireInv_step (s s1 : Sys) (hi : FireInv s) (h : Step s s1) : FireInv s1 := by
  cases h with
  | trig ht => exact fireInv_trigStep s s1 hi ht
  | uart hb hu => exact fireInv_uartStep s s1 hi hb hu
  | motor _ hm => exact fireInv_motorStep s s1 hi hm
  | timeout _ ht => exact fireInv_uartTimeout s s1 hi ht

theorem fireInv_reachable (input : List Nat) (s : Sys) (h : Reachable input s) : FireInv s := by
  induction h with
  | boot => exact fireInv_boot input
  | step _ hs ih => exact fireInv_step _ _ ih hs

theorem reachable_runSchedule (input : List Nat) (sched : List Thread) :
    ∀ s s1 : Sys, Reachable input s → runSchedule sched s = some s1 → Reachable input s1 := by
  induction sched with
  | nil =>
    intro s s1 hr h
    simp only [runSchedule, Option.some.injEq] at h
    exact h ▸ hr
  | cons t ts ih =>
    intro s s1 hr h
    simp only [runSchedule] at h
    split_ifs at h with hc
    cases hstep : threadStep t s with
    | none => simp [hstep] at h
    | some s2 =>
      rw [hstep, Option.some_bind] at h
      refine ih s2 s1 (Reachable.step hr ?_) h
      cases t with
      | trigTask => exact Step.trig hstep
      | uartTask =>
        have hb : trigStep s = none := by simpa using hc
        exact Step.uart hb hstep
      | motorTask =>
        have hb : trigStep s = none := by simpa using hc
        exact Step.motor hb hstep

/-- C5. FIRE is synchronous. In every state reachable from boot in which the
scheduler lets the Command Task (or the Control Task) take a statement, the
Fire Task is back at its wait with `triggerSem` empty, the fire output is at
`TRIGPULSE`, and the Fire Task has driven the fire output, transmitted the
completion byte 1 and signalled fire-complete once for its pass at boot and
once for every FIRE opcode the Command Task has dispatched: each dispatched
FIRE is answered by exactly one completion byte before the Command Task takes
its next statement, in particular before it reads the next packet. -/
theorem C5_fire_synchronous (input : List Nat) (s : Sys) (hr : Reachable input s)
    (hb : trigStep s = none) :
    s.trigPc = .waitTrigger ∧ s.triggerSem = 0 ∧
    completionBytes s = fireDispatches s + 1 ∧
    firePulses s = fireDispatches s + 1 ∧
    fireCompletes s = fireDispatches s + 1 ∧
    s.tim3ccr4 = TRIGPULSE := by
  obtain ⟨hpc, hsem⟩ := trigStep_eq_none s hb
  have hi := fireInv_reachable input s hr
  simp only [FireInv, hpc] at hi
  rcases hi with hi | hi
  · exact ⟨hpc, hi⟩
  · omega

/-- C5 on the line `5 7 1 9`: after the Fire Task's pass at boot, the Command
Task's twelve statements up to the FIRE dispatch and the LED toggle are cut
short by the Fire Task's pass as soon as `triggerSem` is released; when the
Command Task is back at the top of its loop and reads the next byte, one FIRE
has been dispatched and two completion bytes have been sent. -/
theorem C5_fire_synchronous_one_fire :
    ∃ s, runSchedule (List.replicate 5 .trigTask ++ List.replicate 11 .uartTask ++
        List.replicate 5 .trigTask ++ List.replicate 4 .uartTask) (boot [5, 7, 1, 9]) = some s ∧
      s.uartPc = .recvTht ∧ trigStep s = none ∧ fireDispatches s = 1 ∧
      completionBytes s = 2 ∧ firePulses s = 2 ∧ fireCompletes s = 2 ∧ sentBytes s = [1, 1] := by
  have hsome : (runSchedule (List.replicate 5 .trigTask ++ List.replicate 11 .uartTask ++
      List.replicate 5 .trigTask ++ List.replicate 4 .uartTask) (boot [5, 7, 1, 9])).isSome
      = true := by decide
  obtain ⟨s, hs⟩ := Option.isSome_iff_exists.mp hsome
  have hview : (runSchedule (List.replicate 5 .trigTask ++ List.replicate 11 .uartTask ++
      List.replicate 5 .trigTask ++ List.replicate 4 .uartTask) (boot [5, 7, 1, 9])).map
      (fun s => (s.uartPc, (trigStep s).isNone, fireDispatches s, sentBytes s))
      = some (.recvTht, true, 1, [1, 1]) := by decide
  rw [hs] at hview
  simp only [Option.map_some', Option.some.injEq, Prod.mk.injEq, Option.isNone_iff_eq_none]
    at hview
  obtain ⟨h1, h2, h3, h4⟩ := hview
  have hr : Reachable [5, 7, 1, 9] s := reachable_runSchedule _ _ _ _ Reachable.boot hs
  obtain ⟨-, -, h5, h6, h7, -⟩ := C5_fire_synchronous [5, 7, 1, 9] s hr h2
  exact ⟨s, hs, h1, h2, h3, by omega, by omega, by omega, h4⟩

/-- C8 (evaluated on the code). Whatever the host will send, at boot the Fire
Task can run, so it is the task that runs; its first five statements take
the token `triggerSem` was created with, drive the fire output to 750 and
transmit the byte 1, while no byte has been received and no FIRE opcode has
been dispatched. -/
theorem C8_fire_at_boot (input : List Nat) :
    (trigStep (boot input)).isSome = true ∧
    (runSchedule (List.replicate 5 .trigTask) (boot input)).map
      (fun s => (sentBytes s, s.tim3ccr4, completionBytes s, fireDispatches s, s.rxLine))
      = some ([1], 750, 1, 0, input) := by
  constructor <;> rfl

/-! ## The Control Task in the machine -/

/-- The first seven statements of a pass of `StartMotorTask` (main.c:617-625),
with `moveSem` signalled and both mutexes free. -/
theorem motor_errors_read (s : Sys) (hpc : s.motorPc = .waitMove) (hmove : s.moveSem = 1)
    (hphi : s.phiDirSem = 1) (htht : s.thetaDirSem = 1) :
    runThread .motorTask 7 s = some
      { s with
        moveSem := 0
        motor := readErrors s.motor s.phierr s.thterr
        motorPc := .compute
        log := s.log ++
          [(.motorTask, .wait .moveSem), (.motorTask, .wait .phiDirSem),
           (.motorTask, .getPhierr s.phierr), (.motorTask, .release .phiDirSem),
           (.motorTask, .wait .thetaDirSem), (.motorTask, .getThterr s.thterr),
           (.motorTask, .release .thetaDirSem)] } := by
  obtain ⟨phiDirSem, thetaDirSem, triggerSem, trigendSem, moveSem, moveendSem, uartphierr,
    uartthterr, oper, phierr, thterr, rxLine, pg3, ld3, tim2ccr4, tim3ccr3, tim3ccr4, uartPc,
    motorPc, motor, trigPc, log⟩ := s
  simp only at hpc hmove hphi htht
  subst hpc hmove hphi htht
  have h7 : runThread .motorTask 7 (Sys.mk 1 1 triggerSem trigendSem 1 moveendSem
      uartphierr uartthterr oper phierr thterr rxLine pg3 ld3 tim2ccr4 tim3ccr3
      tim3ccr4 uartPc .waitMove motor trigPc log) =
    some (Sys.mk 1 1 triggerSem trigendSem 0 moveendSem uartphierr uartthterr oper phierr thterr
      rxLine pg3 ld3 tim2ccr4 tim3ccr3 tim3ccr4 uartPc .compute (readErrors motor phierr thterr)
      trigPc
      (log ++ [(.motorTask, .wait .moveSem)] ++ [(.motorTask, .wait .phiDirSem)] ++
        [(.motorTask, .getPhierr phierr)] ++ [(.motorTask, .release .phiDirSem)] ++
        [(.motorTask, .wait .thetaDirSem)] ++ [(.motorTask, .getThterr thterr)] ++
        [(.motorTask, .release .thetaDirSem)])) := rfl
  rw [h7]
  simp

/-- A pass of `StartMotorTask` in the machine, run alone with `moveSem`
signalled and both mutexes free, does what `motorBody` says: same locals at
the end, same bytes transmitted, same values stored to the two registers, and
the task is back at its wait exactly when the pass did not leave the loop. -/
theorem motor_pass_eq_motorBody (s : Sys) (hpc : s.motorPc = .waitMove) (hmove : s.moveSem = 1)
    (hphi : s.phiDirSem = 1) (htht : s.thetaDirSem = 1) :
    ∃ s1, runThread .motorTask 10 s = some s1 ∧
      s1.motor = (motorBody s.motor s.phierr s.thterr).locals ∧
      s1.motorPc = (if (motorBody s.motor s.phierr s.thterr).looping then .waitMove
        else .returned) ∧
      sentBytes s1 = sentBytes s ++ (motorBody s.motor s.phierr s.thterr).sent ∧
      s1.tim2ccr4 = ((motorBody s.motor s.phierr s.thterr).tim2ccr4).getD s.tim2ccr4 ∧
      s1.tim3ccr3 = ((motorBody s.motor s.phierr s.thterr).tim3ccr3).getD s.tim3ccr3 ∧
      s1.pg3 = (s.pg3 || (motorBody s.motor s.phierr s.thterr).pg3set) := by
  have h7 := motor_errors_read s hpc hmove hphi htht
  by_cases h : (checkBound (pidControl (readErrors s.motor s.phierr s.thterr))).bounderr = 0
  · rw [motorBody_fault _ _ _ h]
    rw [runThread_succ, runThread_succ, runThread_succ, h7]
    simp [threadStep, motorStep, h, Sys.emit, sentBytes, List.filterMap_append, faultReset]
  · rw [motorBody_pass _ _ _ h]
    rw [runThread_succ, runThread_succ, runThread_succ, h7]
    simp [threadStep, motorStep, h, Sys.emit, sentBytes, List.filterMap_append, storePrev]

/-! ## Direction of a pass -/

theorem floatToInt_add_nonneg (p : Int) (x : ℚ) (hx : 0 ≤ x) : p ≤ floatToInt ((p : ℚ) + x) := by
  unfold floatToInt
  split_ifs
  · exact Int.le_floor.mpr (by linarith)
  · have h : (p : ℚ) ≤ ((⌈(p : ℚ) + x⌉ : Int) : ℚ) := le_trans (by linarith) (Int.le_ceil _)
    exact_mod_cast h

theorem floatToInt_add_nonpos (p : Int) (x : ℚ) (hx : x ≤ 0) : floatToInt ((p : ℚ) + x) ≤ p := by
  unfold floatToInt
  split_ifs
  · have h : ((⌊(p : ℚ) + x⌋ : Int) : ℚ) ≤ (p : ℚ) := le_trans (Int.floor_le _) (by linarith)
    exact_mod_cast h
  · exact Int.ceil_le.mpr (by linarith)

theorem pidIncrement_nonneg (now integ prev : ℚ) (h0 : 0 ≤ now) (hi : 0 ≤ integ)
    (hp : prev ≤ now) : 0 ≤ pidIncrement now integ ((now - prev) / dt) := by
  have hd : (now - prev) / dt = 30 * (now - prev) := by
    simp only [dt]; ring
  rw [hd]
  simp only [pidIncrement, kp, ki]
  linarith

theorem pidIncrement_nonpos (now integ prev : ℚ) (h0 : now ≤ 0) (hi : integ ≤ 0)
    (hp : now ≤ prev) : pidIncrement now integ ((now - prev) / dt) ≤ 0 := by
  have hd : (now - prev) / dt = 30 * (now - prev) := by
    simp only [dt]; ring
  rw [hd]
  simp only [pidIncrement, kp, ki]
  linarith

theorem clamped_phipulse (m : MotorLocals) (phierr thterr : Int) :
    (checkBound (pidControl (readErrors m phierr thterr))).phipulse =
      clampPhi (floatToInt ((m.phipulse : ℚ) +
        pidIncrement (phierr : ℚ) (m.integphi + (phierr : ℚ))
          (((phierr : ℚ) - m.prevphierr) / dt))) := rfl

theorem clamped_thtpulse (m : MotorLocals) (phierr thterr : Int) :
    (checkBound (pidControl (readErrors m phierr thterr))).thtpulse =
      clampTht (floatToInt ((m.thtpulse : ℚ) +
        pidIncrement (thterr : ℚ) (m.integtht + (thterr : ℚ))
          (((thterr : ℚ) - m.prevthterr) / dt))) := rfl

set_option maxRecDepth 100000 in
/-- C11 (as stated, refuted). From the fresh locals, the pan errors 2 then 1
keep the pan pulse strictly inside `(150, 750)`, and the second pass, whose
pan error 1 is positive, lowers the pan pulse from 455 to 452; the tilt errors
-2 then -1 keep the tilt pulse strictly inside `(150, 600)`, and the second
pass, whose tilt error -1 is negative, raises the tilt pulse from 442 to 444.
The drop is the derivative term's: with the three-gain formula the second pan
pass would still store 453, below 455. -/
theorem C11_positive_error_lowers_pulse :
    (motorLoop MotorLocals.fresh [(2, 0), (1, 0)]).pwmPerPass
      = [(some 455, some 449), (some 452, some 449)] ∧
    (motorLoop MotorLocals.fresh [(0, -2), (0, -1)]).pwmPerPass
      = [(some 449, some 442), (some 449, some 444)] ∧
    (motorLoop MotorLocals.fresh [(2, 0), (1, 0)]).looping = true ∧
    (motorLoop MotorLocals.fresh [(0, -2), (0, -1)]).looping = true ∧
    floatToInt ((455 : ℚ) + pidIncrementSpec 1 3 ((1 - 2) / dt)) = 453 := by
  refine ⟨?_, ?_, ?_, ?_, ?_⟩ <;>
    norm_num [motorLoop, motorBody, checkBound, pidControl, readErrors, storePrev, faultReset,
      atBound, clampPhi, clampTht, pidIncrement, pidIncrementSpec, floatToInt, MotorLocals.fresh,
      PHIMIN, PHIMAX, THTMIN, THTMAX, PHICENTER, THTCENTER, BOUNDCOUNT, dt, kp, ki, kd]

/-- C11 (amended). One pass of the Control Task moves an axis pulse in the
direction of its current error when the other two terms do not oppose it: with
a positive error that is not below the previous error and a non-negative
integral after accumulation, the clamped pulse is not below the pulse before
the pass (given that pulse is not above the axis maximum); with a negative
error that is not above the previous error and a non-positive integral after
accumulation, the clamped pulse is not above the pulse before the pass (given
that pulse is not below the axis minimum).  The same holds for both axes. -/
theorem C11_direction_of_pass (m : MotorLocals) (phierr thterr : Int) :
    (0 < phierr → m.prevphierr ≤ (phierr : ℚ) → 0 ≤ m.integphi + (phierr : ℚ) →
      m.phipulse ≤ PHIMAX →
      m.phipulse ≤ (checkBound (pidControl (readErrors m phierr thterr))).phipulse) ∧
    (phierr < 0 → (phierr : ℚ) ≤ m.prevphierr → m.integphi + (phierr : ℚ) ≤ 0 →
      PHIMIN ≤ m.phipulse →
      (checkBound (pidControl (readErrors m phierr thterr))).phipulse ≤ m.phipulse) ∧
    (0 < thterr → m.prevthterr ≤ (thterr : ℚ) → 0 ≤ m.integtht + (thterr : ℚ) →
      m.thtpulse ≤ THTMAX →
      m.thtpulse ≤ (checkBound (pidControl (readErrors m phierr thterr))).thtpulse) ∧
    (thterr < 0 → (thterr : ℚ) ≤ m.prevthterr → m.integtht + (thterr : ℚ) ≤ 0 →
      THTMIN ≤ m.thtpulse →
      (checkBound (pidControl (readErrors m phierr thterr))).thtpulse ≤ m.thtpulse) := by
  refine ⟨?_, ?_, ?_, ?_⟩
  · intro h0 hp hi hb
    have hx := pidIncrement_nonneg (phierr : ℚ) (m.integphi + (phierr : ℚ)) m.prevphierr
      (by exact_mod_cast h0.le) hi hp
    have hf := floatToInt_add_nonneg m.phipulse _ hx
    rw [clamped_phipulse, clampPhi_eq]
    simp only [PHIMAX] at hb
    omega
  · intro h0 hp hi hb
    have hx := pidIncrement_nonpos (phierr : ℚ) (m.integphi + (phierr : ℚ)) m.prevphierr
      (by exact_mod_cast h0.le) hi hp
    have hf := floatToInt_add_nonpos m.phipulse _ hx
    rw [clamped_phipulse, clampPhi_eq]
    simp only [PHIMIN] at hb
    omega
  · intro h0 hp hi hb
    have hx := pidIncrement_nonneg (thterr : ℚ) (m.integtht + (thterr : ℚ)) m.prevthterr
      (by exact_mod_cast h0.le) hi hp
    have hf := floatToInt_add_nonneg m.thtpulse _ hx
    rw [clamped_thtpulse, clampTht_eq]
    simp only [THTMAX] at hb
    omega
  · intro h0 hp hi hb
    have hx := pidIncrement_nonpos (thterr : ℚ) (m.integtht + (thterr : ℚ)) m.prevthterr
      (by exact_mod_cast h0.le) hi hp
    have hf := floatToInt_add_nonpos m.thtpulse _ hx
    rw [clamped_thtpulse, clampTht_eq]
    simp only [THTMIN] at hb
    omega

/-- C11 (amended) at the first pass from the fresh locals: the errors `(2, -2)`
do not lower the pan pulse 449 and do not raise the tilt pulse 449; the errors
`(-2, 2)` do not raise the pan pulse and do not lower the tilt pulse. -/
theorem C11_direction_of_first_pass :
    (449 ≤ (checkBound (pidControl (readErrors MotorLocals.fresh 2 (-2)))).phipulse ∧
      (checkBound (pidControl (readErrors MotorLocals.fresh 2 (-2)))).thtpulse ≤ 449) ∧
    ((checkBound (pidControl (readErrors MotorLocals.fresh (-2) 2))).phipulse ≤ 449 ∧
      449 ≤ (checkBound (pidControl (readErrors MotorLocals.fresh (-2) 2))).thtpulse) :=
  ⟨⟨(C11_direction_of_pass MotorLocals.fresh 2 (-2)).1 (by decide)
      (by norm_num [MotorLocals.fresh]) (by norm_num [MotorLocals.fresh]) (by decide),
    (C11_direction_of_pass MotorLocals.fresh 2 (-2)).2.2.2 (by decide)
      (by norm_num [MotorLocals.fresh]) (by norm_num [MotorLocals.fresh]) (by decide)⟩,
   ⟨(C11_direction_of_pass MotorLocals.fresh (-2) 2).2.1 (by decide)
      (by norm_num [MotorLocals.fresh]) (by norm_num [MotorLocals.fresh]) (by decide),
    (C11_direction_of_pass MotorLocals.fresh (-2) 2).2.2.1 (by decide)
      (by norm_num [MotorLocals.fresh]) (by norm_num [MotorLocals.fresh]) (by decide)⟩⟩

/-! ## The budget over interleaved passes, under any float arithmetic -/

theorem motorBodyA_bounderr (A : FloatArith) (m : MotorLocals) (e : Int × Int) :
    (motorBodyA A m e.1 e.2).locals.bounderr =
      if (motorBodyA A m e.1 e.2).looping then
        (if pinnedPassA A m e then m.bounderr - 1 else m.bounderr)
      else BOUNDCOUNT := by
  by_cases h : (checkBound (pidControlA A (readErrorsA A m e.1 e.2))).bounderr = 0
  · rw [motorBodyA_fault A m e.1 e.2 h]
    rfl
  · rw [motorBodyA_pass A m e.1 e.2 h]
    exact checkBoundA_bounderr A m e

/-- A run in which fewer passes are pinned than the budget it starts with:
no pass transmits, the loop goes on, and the budget has gone down by the
number of pinned passes. -/
theorem motorLoopA_below_budget (A : FloatArith) (errs : List (Int × Int)) :
    ∀ m : MotorLocals, (pinnedCountA A m errs : Int) < m.bounderr →
      (motorLoopA A m errs).looping = true ∧
      (motorLoopA A m errs).sentPerPass = List.replicate errs.length [] ∧
      (motorLoopA A m errs).locals.bounderr = m.bounderr - (pinnedCountA A m errs : Int) := by
  induction errs with
  | nil =>
    intro m _
    simp [motorLoopA, pinnedCountA]
  | cons e es ih =>
    intro m hlt
    have hc := checkBoundA_bounderr A m e
    simp only [pinnedCountA] at hlt
    push_cast at hlt
    have hne : (checkBound (pidControlA A (readErrorsA A m e.1 e.2))).bounderr ≠ 0 := by
      rw [hc]
      split_ifs with hp
      · simp only [hp, if_true] at hlt; omega
      · simp only [hp] at hlt; simp at hlt; omega
    have hbody := motorBodyA_pass A m e.1 e.2 hne
    have hloc : (motorBodyA A m e.1 e.2).locals.bounderr =
        if pinnedPassA A m e then m.bounderr - 1 else m.bounderr := by
      rw [hbody]; exact hc
    have hlt2 : (pinnedCountA A (motorBodyA A m e.1 e.2).locals es : Int)
        < (motorBodyA A m e.1 e.2).locals.bounderr := by
      rw [hloc]
      split_ifs with hp
      · simp only [hp, if_true] at hlt; omega
      · simp only [hp] at hlt; simp at hlt; omega
    obtain ⟨h1, h2, h3⟩ := ih _ hlt2
    have hl : (motorBodyA A m e.1 e.2).looping = true := by rw [hbody]
    have hs : (motorBodyA A m e.1 e.2).sent = [] := by rw [hbody]
    simp only [motorLoopA, hl, if_true, pinnedCountA]
    refine ⟨h1, ?_, ?_⟩
    · rw [h2, hs]; rfl
    · rw [h3, hloc]
      push_cast
      split_ifs <;> ring

theorem motorLoopA_snoc (A : FloatArith) (errs : List (Int × Int)) (e : Int × Int) :
    ∀ m : MotorLocals, (motorLoopA A m errs).looping = true →
      (motorLoopA A m (errs ++ [e])).looping
        = (motorBodyA A (motorLoopA A m errs).locals e.1 e.2).looping ∧
      (motorLoopA A m (errs ++ [e])).locals
        = (motorBodyA A (motorLoopA A m errs).locals e.1 e.2).locals ∧
      (motorLoopA A m (errs ++ [e])).sentPerPass =
        (motorLoopA A m errs).sentPerPass ++
          [(motorBodyA A (motorLoopA A m errs).locals e.1 e.2).sent] := by
  induction errs with
  | nil =>
    intro m _
    by_cases hl : (motorBodyA A m e.1 e.2).looping = true
    · simp [motorLoopA, hl]
    · simp [motorLoopA, hl]
  | cons a as ih =>
    intro m h
    by_cases hl : (motorBodyA A m a.1 a.2).looping = true
    · simp only [motorLoopA, hl, if_true] at h
      obtain ⟨h1, h2, h3⟩ := ih _ h
      simp only [List.cons_append, motorLoopA, hl, if_true]
      simp only [List.append_eq] at h1 h2 h3 ⊢
      exact ⟨h1, h2, by rw [h3]⟩
    · simp [motorLoopA, hl] at h

/-- C12. The saturation budget is cumulative, under any float arithmetic `A`
and so under that of the target.  In one pass the clamping stage lowers
`bounderr` by exactly 1 when the saturation test holds (one axis or both, e.g.
pan at 750 and tilt at 150 take 30 to 29) and leaves it unchanged otherwise;
the pass ends with `bounderr` so lowered unless it is the fault pass, which
leaves `BOUNDCOUNT = 30`.  From the fresh locals, a run with fewer than 30
pinned passes, however interleaved with unpinned ones, transmits nothing,
stays in the loop and has `30 - pinned` left; and when 29 passes of a run have
been pinned, the next pinned pass is the one that transmits the single fault
byte 0, resets the locals and leaves the loop. -/
theorem C12_budget_cumulative (A : FloatArith) (m : MotorLocals) (e0 : Int × Int)
    (quiet pre : List (Int × Int)) (e : Int × Int)
    (hquiet : pinnedCountA A MotorLocals.fresh quiet < 30)
    (hpre : pinnedCountA A MotorLocals.fresh pre = 29)
    (hlast : pinnedPassA A (motorLoopA A MotorLocals.fresh pre).locals e = true) :
    ((checkBound (pidControlA A (readErrorsA A m e0.1 e0.2))).bounderr =
      if atBound (checkBound (pidControlA A (readErrorsA A m e0.1 e0.2))).phipulse
          (checkBound (pidControlA A (readErrorsA A m e0.1 e0.2))).thtpulse
      then m.bounderr - 1 else m.bounderr) ∧
    (checkBound { MotorLocals.fresh with phipulse := 9999, thtpulse := 1 }).bounderr = 29 ∧
    ((motorBodyA A m e0.1 e0.2).locals.bounderr =
      if (motorBodyA A m e0.1 e0.2).looping then
        (if pinnedPassA A m e0 then m.bounderr - 1 else m.bounderr)
      else 30) ∧
    ((motorLoopA A MotorLocals.fresh quiet).looping = true ∧
      (motorLoopA A MotorLocals.fresh quiet).sentPerPass = List.replicate quiet.length [] ∧
      (motorLoopA A MotorLocals.fresh quiet).locals.bounderr
        = 30 - (pinnedCountA A MotorLocals.fresh quiet : Int)) ∧
    ((motorLoopA A MotorLocals.fresh (pre ++ [e])).looping = false ∧
      (motorLoopA A MotorLocals.fresh (pre ++ [e])).sentPerPass
        = List.replicate pre.length [] ++ [[0]] ∧
      (motorLoopA A MotorLocals.fresh (pre ++ [e])).locals = MotorLocals.fresh) := by
  refine ⟨rfl, by decide, motorBodyA_bounderr A m e0, ?_, ?_⟩
  · exact motorLoopA_below_budget A quiet MotorLocals.fresh (by
      show (pinnedCountA A MotorLocals.fresh quiet : Int) < 30
      exact_mod_cast hquiet)
  · obtain ⟨h1, h2, h3⟩ := motorLoopA_below_budget A pre MotorLocals.fresh (by
      show (pinnedCountA A MotorLocals.fresh pre : Int) < 30
      rw [hpre]; decide)
    obtain ⟨s1, s2, s3⟩ := motorLoopA_snoc A pre e MotorLocals.fresh h1
    have h0 : (checkBound (pidControlA A (readErrorsA A (motorLoopA A MotorLocals.fresh pre).locals
        e.1 e.2))).bounderr = 0 := by
      rw [checkBoundA_bounderr, hlast, if_pos rfl, h3, hpre]
      rfl
    rw [s1, s2, s3, motorBodyA_fault _ _ _ _ h0, h2]
    exact ⟨rfl, rfl, rfl⟩

/-- C12 under `binary32` on a run with an unpinned pass among the pinned ones:
the pan errors -100, -90, then -100 twenty-nine times.  The second pass is
unpinned, so after thirty passes 29 have been pinned and nothing has been
sent; the thirty-first pass, the thirtieth pinned one, sends the fault byte. -/
theorem C12_budget_cumulative_interleaved :
    allPinnedA binary32 MotorLocals.fresh
      ([(-100, 0), (-90, 0)] ++ List.replicate 28 (-100, 0)) = false ∧
    pinnedCountA binary32 MotorLocals.fresh
      ([(-100, 0), (-90, 0)] ++ List.replicate 28 (-100, 0)) = 29 ∧
    (motorLoopA binary32 MotorLocals.fresh
      ([(-100, 0), (-90, 0)] ++ List.replicate 28 (-100, 0))).looping = true ∧
    (motorLoopA binary32 MotorLocals.fresh
      ([(-100, 0), (-90, 0)] ++ List.replicate 28 (-100, 0))).sentPerPass
        = List.replicate 30 [] ∧
    (motorLoopA binary32 MotorLocals.fresh
      ([(-100, 0), (-90, 0)] ++ List.replicate 28 (-100, 0) ++ [(-100, 0)])).looping = false ∧
    (motorLoopA binary32 MotorLocals.fresh
      ([(-100, 0), (-90, 0)] ++ List.replicate 28 (-100, 0) ++ [(-100, 0)])).sentPerPass
        = List.replicate 30 [] ++ [[0]] := by
  obtain ⟨-, -, -, ⟨h1, h2, -⟩, ⟨h3, h4, -⟩⟩ :=
    C12_budget_cumulative binary32 MotorLocals.fresh (0, 0)
      ([(-100, 0), (-90, 0)] ++ List.replicate 28 (-100, 0))
      ([(-100, 0), (-90, 0)] ++ List.replicate 28 (-100, 0)) (-100, 0)
      (by decide!) (by decide!) (by decide!)
  exact ⟨by decide!, by decide!, h1, by simpa using h2, h3, by simpa using h4⟩

end BirdTurret
